import Mathlib

/-!
# dvp-cloud-controller-manager: provider package

A shallow embedding of `pkg/provider` (`cloud.go`, `instance_getter.go`,
`instances_v2.go`, `loadblancer.go`) together with the properties of the
provider ID codec, the instance metadata resolver and the load balancer
reconciler.

Go strings are modelled as `String` (sequences of Unicode code points); Go
`int32` values that are only copied and compared are modelled as `Int`.
-/

namespace Provider

/-! ## Regular expressions (the fragment of Go `regexp` used by `cloud.go`) -/

/-- Regular expression trees for the RE2 constructs that occur in
`providerIDRegexp`: `^`, `$` (no `m` flag, so they match only at the very
beginning and the very end of the text), literal characters, a bracketed class
given by its ranges, concatenation, greedy `+`, and a numbered capture group. -/
inductive Regex where
  | empty : Regex
  | beginText : Regex
  | endText : Regex
  | lit : Char → Regex
  | cls : List (Char × Char) → Regex
  | cat : Regex → Regex → Regex
  | plus : Regex → Regex
  | cap : Nat → Regex → Regex
  deriving Repr

/-- State of a match attempt: number of characters consumed so far from the
start of the text, the text still to be read, and the capture groups closed so
far (group number, captured text), most recent first. -/
structure MatchState where
  pos : Nat
  rest : List Char
  caps : List (Nat × List Char)
  deriving Repr, DecidableEq

/-- Membership of a character in a bracketed class given by inclusive ranges. -/
def inClass (ranges : List (Char × Char)) (c : Char) : Bool :=
  ranges.any (fun r => decide (r.1 ≤ c) && decide (c ≤ r.2))

/-- Consume one character satisfying `p`. -/
def stepChar (p : Char → Bool) (s : MatchState) (k : MatchState → Option MatchState) :
    Option MatchState :=
  match s.rest with
  | [] => none
  | x :: xs => if p x then k { s with pos := s.pos + 1, rest := xs } else none

/-- Greedy repetition: try one more iteration of `step` first and fall back to
the continuation when that fails. The counter bounds the number of iterations
(callers pass the length of the remaining text). -/
def repeatGreedy (step : MatchState → (MatchState → Option MatchState) → Option MatchState) :
    Nat → MatchState → (MatchState → Option MatchState) → Option MatchState
  | 0, s, k => k s
  | n + 1, s, k =>
    match step s (fun s1 => repeatGreedy step n s1 k) with
    | some r => some r
    | none => k s

/-- Backtracking matcher in continuation-passing style: `r.run s k` matches `r`
at state `s` and hands the state after the match to `k`; alternatives are
explored in priority order (leftmost-first, greedy). -/
def Regex.run : Regex → MatchState → (MatchState → Option MatchState) → Option MatchState
  | .empty, s, k => k s
  | .beginText, s, k => if s.pos = 0 then k s else none
  | .endText, s, k => if s.rest.isEmpty then k s else none
  | .lit c, s, k => stepChar (fun x => x == c) s k
  | .cls rs, s, k => stepChar (inClass rs) s k
  | .cat a b, s, k => a.run s (fun s1 => b.run s1 k)
  | .plus r, s, k => r.run s (fun s1 => repeatGreedy r.run s1.rest.length s1 k)
  | .cap i r, s, k =>
    r.run s (fun s1 => k { s1 with caps := (i, s.rest.take (s1.pos - s.pos)) :: s1.caps })

/-- Concatenation of the literal characters of `cs` followed by `r`. -/
def Regex.literal : List Char → Regex → Regex
  | [], r => r
  | c :: cs, r => .cat (.lit c) (Regex.literal cs r)

/-- Number of capture groups of a regular expression. -/
def Regex.numCap : Regex → Nat
  | .cat a b => a.numCap + b.numCap
  | .plus r => r.numCap
  | .cap _ r => r.numCap + 1
  | _ => 0

/-- Leftmost search: try a match starting at offset `off` of the text and, on
failure, at the following offsets (`text` is what remains from `off`). Returns
the start offset and the final state of the first match. -/
def Regex.searchFrom (re : Regex) : Nat → List Char → Option (Nat × MatchState)
  | off, [] =>
    (re.run { pos := off, rest := [], caps := [] } some).map (fun s => (off, s))
  | off, c :: cs =>
    match re.run { pos := off, rest := c :: cs, caps := [] } some with
    | some s => some (off, s)
    | none => Regex.searchFrom re (off + 1) cs

/-- Go `(*Regexp).FindStringSubmatch`: the text of the leftmost match followed
by the text of each capture group (empty when the group did not take part);
the empty list (Go `nil`) when there is no match. -/
def Regex.FindStringSubmatch (re : Regex) (s : String) : List String :=
  match re.searchFrom 0 s.data with
  | none => []
  | some (off, st) =>
    String.mk ((s.data.drop off).take (st.pos - off)) ::
      (List.range re.numCap).map
        (fun i => String.mk ((st.caps.lookup (i + 1)).getD []))

/-! ## Kubernetes and virtualization API types

Only the fields that the provider package reads or writes are kept. A field
called `Type` in Go is called `Type_` here. -/

/-- Go `map[string]string`: a finite map with distinct keys. -/
abbrev StringMap := AList (fun _ : String => String)

/-- Go `types.NamespacedName` / `client.ObjectKey`. -/
structure NamespacedName where
  Namespace : String
  Name : String
  deriving Repr, DecidableEq

/-- Go `corev1.NodeAddress`. -/
structure NodeAddress where
  Type_ : String
  Address : String
  deriving Repr, DecidableEq

/-- Go `corev1.NodeInternalIP`. -/
def NodeInternalIP : String := "InternalIP"

/-- Go `v1alpha2.VirtualMachineStatus`. -/
structure VirtualMachineStatus where
  Phase : String
  IPAddress : String
  NodeName : String
  deriving Repr, DecidableEq

/-- Go `v1alpha2.VirtualMachine`. -/
structure VirtualMachine where
  Name : String
  Namespace : String
  Status : VirtualMachineStatus
  deriving Repr, DecidableEq

/-- Go `v1alpha2.MachineStopped`. -/
def MachineStopped : String := "Stopped"

/-- Go `corev1.NodeSpec`. -/
structure NodeSpec where
  ProviderID : String
  deriving Repr, DecidableEq

/-- Go `corev1.NodeStatus`. -/
structure NodeStatus where
  Addresses : List NodeAddress
  deriving Repr, DecidableEq

/-- Go `corev1.Node`. -/
structure Node where
  Name : String
  Labels : StringMap
  Spec : NodeSpec
  Status : NodeStatus
  deriving DecidableEq

/-- Go `corev1.LabelTopologyRegion`. -/
def LabelTopologyRegion : String := "topology.kubernetes.io/region"

/-- Go `corev1.LabelTopologyZone`. -/
def LabelTopologyZone : String := "topology.kubernetes.io/zone"

/-- Go `intstr.Int` (`Type` is an integer kind: `Int = 0`, `String = 1`). -/
def intstr.Int : Nat := 0

/-- Go `intstr.String`. -/
def intstr.String : Nat := 1

/-- Go `intstr.IntOrString`. -/
structure IntOrString where
  Type_ : Nat
  IntVal : Int
  StrVal : String
  deriving Repr, DecidableEq

/-- Go `corev1.ServicePort`, all six fields. -/
structure ServicePort where
  Name : String
  Protocol : String
  AppProtocol : Option String
  Port : Int
  TargetPort : IntOrString
  NodePort : Int
  deriving Repr, DecidableEq

/-- Go `corev1.LoadBalancerIngress`. -/
structure LoadBalancerIngress where
  IP : String
  Hostname : String
  deriving Repr, DecidableEq

/-- Go `corev1.LoadBalancerStatus`. -/
structure LoadBalancerStatus where
  Ingress : List LoadBalancerIngress
  deriving Repr, DecidableEq

/-- Go `corev1.ServiceStatus`. -/
structure ServiceStatus where
  LoadBalancer : LoadBalancerStatus
  deriving Repr, DecidableEq

/-- Go `corev1.ServiceTypeLoadBalancer`. -/
def ServiceTypeLoadBalancer : String := "LoadBalancer"

/-- Go `corev1.ServiceSpec`. A `nil` map or slice is the empty one. -/
structure ServiceSpec where
  Ports : List ServicePort
  Type_ : String
  Selector : StringMap
  ExternalIPs : List String
  LoadBalancerClass : Option String
  LoadBalancerIP : String
  HealthCheckNodePort : Int
  ExternalTrafficPolicy : String
  deriving DecidableEq

/-- Go `corev1.Service` (both the exposed service handed in by the host
framework and the backing service kept in the provider namespace). -/
structure Service where
  Name : String
  Namespace : String
  UID : String
  Annotations : StringMap
  Labels : StringMap
  Spec : ServiceSpec
  Status : ServiceStatus
  deriving DecidableEq

/-! ## The backing store behind `client.Client` -/

/-- An error returned by the backing-store client, as
`reasonAndCodeForError` of `k8s.io/apimachinery/pkg/api/errors` sees it: the
Kubernetes status reason (`"NotFound"`, `"AlreadyExists"`, ... or `""`, the
unknown reason, also for an error that carries no API status), the HTTP status
code (`0` when there is none) and a message. -/
structure StatusError where
  reason : String
  code : Int
  message : String
  deriving Repr, DecidableEq

/-- Go `knownReasons` of `k8s.io/apimachinery/pkg/api/errors`: the status
reasons the library knows; the unknown reason `""` is not among them. -/
def knownReasons : List String :=
  ["Unauthorized", "Forbidden", "NotFound", "AlreadyExists", "Conflict", "Gone", "Invalid",
   "ServerTimeout", "Timeout", "TooManyRequests", "BadRequest", "MethodNotAllowed",
   "NotAcceptable", "RequestEntityTooLarge", "UnsupportedMediaType", "InternalError",
   "Expired", "ServiceUnavailable"]

/-- Go `error` values produced or passed on by the provider package. Errors
coming from the backing-store client are kept apart (`client`): they are never
the `InstanceNotFound` sentinel of the cloud-provider framework. -/
inductive Error where
  | InstanceNotFound : Error
  | invalidProviderID (providerID : String) : Error
  | client (e : StatusError) : Error
  | deadlineExceeded : Error
  deriving Repr, DecidableEq

/-- Go `k8serrors.IsNotFound`: the reason is `NotFound`, or the reason is not a
known one and the HTTP code is 404. The errors made by this package itself
carry no API status (unknown reason, code 0). -/
def IsNotFound (err : Error) : Bool :=
  match err with
  | .client e =>
    if e.reason == "NotFound" then
      true
    else if !knownReasons.contains e.reason && e.code == 404 then
      true
    else
      false
  | _ => false

/-- Go `errors.Is(err, target)` for the unwrapped errors of this package. -/
def errorsIs (err target : Error) : Bool := err == target

/-- A request sent to the backing store. -/
inductive Call where
  | getService (key : NamespacedName) : Call
  | getVirtualMachine (key : NamespacedName) : Call
  | getNode (key : NamespacedName) : Call
  | create (obj : Service) : Call
  | update (obj : Service) : Call
  | delete (obj : Service) : Call
  deriving DecidableEq

/-- What the platform (or any other external writer) does to the store while
the reconciler waits between two polls. -/
inductive PlatformAction where
  | idle : PlatformAction
  | assignIngress (key : NamespacedName) (ingress : List LoadBalancerIngress) : PlatformAction
  | write (obj : Service) : PlatformAction
  | remove (key : NamespacedName) : PlatformAction
  deriving DecidableEq

/-- Modelled from the spec: the backing-store capability of section 6
(`get`, `create`, `update`, `delete`, each failing with a distinguishable
not-found condition or a transport error), which the repository reaches through
the external `client.Client`. The store holds the objects; `faults` is the
script of injected failures, one slot per request (`some e` makes that request
fail with `e` and leaves the store alone); `platform` is the script of external
writes, one per poll interval; `log` records every request issued. -/
structure World where
  services : List Service
  instances : List VirtualMachine
  nodes : List Node
  faults : List (Option StatusError)
  platform : List PlatformAction
  log : List Call

/-- Key of a service object. -/
def Service.key (s : Service) : NamespacedName := ⟨s.Namespace, s.Name⟩

/-- Record a request and take the next slot of the fault script. -/
def World.call (w : World) (c : Call) : Option StatusError × World :=
  (w.faults.head?.join, { w with log := w.log ++ [c], faults := w.faults.tail })

/-- The not-found error of the store. -/
def notFound (key : NamespacedName) : Error :=
  .client ⟨"NotFound", 404, key.Name⟩

/-- Go `client.Get` for a `corev1.Service`. -/
def World.GetService (w : World) (key : NamespacedName) : Except Error Service × World :=
  match w.call (.getService key) with
  | (some e, w1) => (.error (.client e), w1)
  | (none, w1) =>
    match w1.services.find? (fun s => s.key == key) with
    | some s => (.ok s, w1)
    | none => (.error (notFound key), w1)

/-- Go `client.Get` for a `v1alpha2.VirtualMachine`. -/
def World.GetVirtualMachine (w : World) (key : NamespacedName) :
    Except Error VirtualMachine × World :=
  match w.call (.getVirtualMachine key) with
  | (some e, w1) => (.error (.client e), w1)
  | (none, w1) =>
    match w1.instances.find? (fun i => i.Namespace == key.Namespace && i.Name == key.Name) with
    | some i => (.ok i, w1)
    | none => (.error (notFound key), w1)

/-- Go `client.Get` for a `corev1.Node` (cluster-scoped: empty namespace). -/
def World.GetNode (w : World) (key : NamespacedName) : Except Error Node × World :=
  match w.call (.getNode key) with
  | (some e, w1) => (.error (.client e), w1)
  | (none, w1) =>
    match w1.nodes.find? (fun n => n.Name == key.Name) with
    | some n => (.ok n, w1)
    | none => (.error (notFound key), w1)

/-- Go `client.Create` for a `corev1.Service`. -/
def World.Create (w : World) (obj : Service) : Option Error × World :=
  match w.call (.create obj) with
  | (some e, w1) => (some (.client e), w1)
  | (none, w1) =>
    if w1.services.any (fun s => s.key == obj.key) then
      (some (.client ⟨"AlreadyExists", 409, obj.Name⟩), w1)
    else
      (none, { w1 with services := w1.services ++ [obj] })

/-- Go `client.Update` for a `corev1.Service`. -/
def World.Update (w : World) (obj : Service) : Option Error × World :=
  match w.call (.update obj) with
  | (some e, w1) => (some (.client e), w1)
  | (none, w1) =>
    if w1.services.any (fun s => s.key == obj.key) then
      (none, { w1 with services := w1.services.map (fun s => if s.key == obj.key then obj else s) })
    else
      (some (notFound obj.key), w1)

/-- Go `client.Delete` for a `corev1.Service`. -/
def World.Delete (w : World) (obj : Service) : Option Error × World :=
  match w.call (.delete obj) with
  | (some e, w1) => (some (.client e), w1)
  | (none, w1) =>
    if w1.services.any (fun s => s.key == obj.key) then
      (none, { w1 with services := w1.services.filter (fun s => !(s.key == obj.key)) })
    else
      (some (notFound obj.key), w1)

/-- Effect of one external action on the stored services. -/
def PlatformAction.apply (a : PlatformAction) (services : List Service) : List Service :=
  match a with
  | .idle => services
  | .assignIngress key ingress =>
    services.map (fun s =>
      if s.key == key then { s with Status := { LoadBalancer := { Ingress := ingress } } } else s)
  | .write obj => obj :: services.filter (fun s => !(s.key == obj.key))
  | .remove key => services.filter (fun s => !(s.key == key))

/-- One poll interval elapses: the next external action, if any, takes place. -/
def World.tick (w : World) : World :=
  match w.platform with
  | [] => w
  | a :: as => { w with services := a.apply w.services, platform := as }

/-! ## cloud.go: provider ID codec -/

/-- The name of the virtualization provider. -/
def ProviderName : String := "dvp"

/-- Source: `fmt.Sprintf("%s://%s", ProviderName, instanceID)`. -/
def GetProviderID (instanceID : String) : String :=
  ProviderName ++ "://" ++ instanceID

/-- Source: `regexp.MustCompile("^" + ProviderName + "://([0-9A-Za-z_-]+)$")`. -/
def providerIDRegexp : Regex :=
  .cat .beginText
    (Regex.literal (ProviderName ++ "://").data
      (.cat (.cap 1 (.plus (.cls [('0', '9'), ('A', 'Z'), ('a', 'z'), ('_', '_'), ('-', '-')])))
        .endText))

/-- ParseProviderID extracts the instance ID from a provider ID. The result is
the Go pair `(instanceID, err)`. -/
def ParseProviderID (providerID : String) : String × Option Error :=
  let ms := providerIDRegexp.FindStringSubmatch providerID
  if ms.length ≠ 2 then
    ("", some (Error.invalidProviderID providerID))
  else
    (ms.getD 1 "", none)

/-! ## instance_getter.go -/

/-- GetByName gets a virtual machine; a store not-found becomes
`cloudprovider.InstanceNotFound`. The result is the Go pair `(instance, err)`
(the Go variable `instance` is called `vm` here). -/
def GetByName (name namespace_ : String) (w : World) :
    (Option VirtualMachine × Option Error) × World :=
  match w.GetVirtualMachine ⟨namespace_, name⟩ with
  | (.error err, w1) =>
    if IsNotFound err then
      ((none, some Error.InstanceNotFound), w1)
    else
      ((none, some err), w1)
  | (.ok vm, w1) => ((some vm, none), w1)

/-- GetByProviderID gets a virtual machine by the provider ID of its node. -/
def GetByProviderID (providerID namespace_ : String) (w : World) :
    (Option VirtualMachine × Option Error) × World :=
  match ParseProviderID providerID with
  | (_, some err) => ((none, some err), w)
  | (instanceName, none) => GetByName instanceName namespace_ w

/-! ## instances_v2.go -/

/-- Receiver of the instance operations (the client is the `World`). -/
structure instancesV2 where
  namespace_ : String
  ZoneAndRegionEnabled : Bool
  deriving Repr, DecidableEq

/-- Go `cloudprovider.InstanceMetadata` (the fields set by the provider). -/
structure InstanceMetadata where
  ProviderID : String
  NodeAddresses : List NodeAddress
  Region : String
  Zone : String
  deriving Repr, DecidableEq

/-- Go `nodehelper.AddToNodeAddresses` (k8s.io/cloud-provider/node/helpers) for
one added address: it is appended only if no existing entry has the same
address and type. -/
def AddToNodeAddresses (addresses : List NodeAddress) (add : NodeAddress) : List NodeAddress :=
  if addresses.any (fun existing => existing.Address == add.Address && existing.Type_ == add.Type_)
  then addresses
  else addresses ++ [add]

/-- Source: `instancesV2.getNodeAddresses`. -/
def getNodeAddresses (status : VirtualMachineStatus) (prevAddrs : List NodeAddress) :
    List NodeAddress :=
  let addrs : List NodeAddress := []
  let foundInternalIP := false
  let (addrs, foundInternalIP) :=
    if status.IPAddress ≠ "" then
      (AddToNodeAddresses addrs { Type_ := NodeInternalIP, Address := status.IPAddress }, true)
    else (addrs, foundInternalIP)
  if !foundInternalIP then
    prevAddrs.foldl
      (fun addrs prevAddr =>
        if prevAddr.Type_ = NodeInternalIP then AddToNodeAddresses addrs prevAddr else addrs)
      addrs
  else addrs

/-- Source: `instancesV2.getRegionAndZone`; the result is `(region, zone, err)`. -/
def getRegionAndZone (i : instancesV2) (nodeName : String) (w : World) :
    (String × String × Option Error) × World :=
  if !i.ZoneAndRegionEnabled then
    (("", "", none), w)
  else
    match w.GetNode ⟨"", nodeName⟩ with
    | (.error err, w1) => (("", "", some err), w1)
    | (.ok node, w1) =>
      let region := (node.Labels.lookup LabelTopologyRegion).getD ""
      let zone := (node.Labels.lookup LabelTopologyZone).getD ""
      ((region, zone, none), w1)

/-- Source: `instancesV2.InstanceExists`; the result is `(exists, err)`. -/
def InstanceExists (i : instancesV2) (node : Node) (w : World) :
    (Bool × Option Error) × World :=
  match GetByProviderID node.Spec.ProviderID i.namespace_ w with
  | ((_, some err), w1) =>
    if errorsIs err Error.InstanceNotFound then
      ((false, none), w1)
    else
      ((false, some err), w1)
  | ((_, none), w1) => ((true, none), w1)

/-- Source: `instancesV2.InstanceShutdown`. The lookup never returns
`(nil, nil)`; that branch is there only to make the match complete. -/
def InstanceShutdown (i : instancesV2) (node : Node) (w : World) :
    (Bool × Option Error) × World :=
  match GetByProviderID node.Spec.ProviderID i.namespace_ w with
  | ((_, some err), w1) => ((false, some err), w1)
  | ((none, none), w1) => ((false, none), w1)
  | ((some vm, none), w1) => ((vm.Status.Phase == MachineStopped, none), w1)

/-- Source: `instancesV2.InstanceMetadata`. The lookup never returns
`(nil, nil)`; that branch is there only to make the match complete. -/
def instancesV2.InstanceMetadata (i : instancesV2) (node : Node) (w : World) :
    (Option InstanceMetadata × Option Error) × World :=
  match GetByProviderID node.Spec.ProviderID i.namespace_ w with
  | ((_, some err), w1) => ((none, some err), w1)
  | ((none, none), w1) => ((none, none), w1)
  | ((some vm, none), w1) =>
    let addrs := getNodeAddresses vm.Status node.Status.Addresses
    match getRegionAndZone i vm.Status.NodeName w1 with
    | ((_, _, some err), w2) => ((none, some err), w2)
    | ((region, zone, none), w2) =>
      ((some { ProviderID := GetProviderID vm.Name,
               NodeAddresses := addrs,
               Region := region,
               Zone := zone }, none), w2)

/-! ## config.go and loadblancer.go -/

/-- Source: `LoadBalancerConfig`. -/
structure LoadBalancerConfig where
  CreationPollInterval : Int
  CreationPollTimeout : Int
  SelectorLess : Bool
  deriving Repr, DecidableEq

/-- Receiver of the load balancer operations (the client is the `World`). -/
structure loadBalancer where
  namespace_ : String
  config : LoadBalancerConfig
  infraLabels : StringMap
  deriving DecidableEq

/-- Go `cloudprovider.DefaultLoadBalancerName`: `"a"` followed by the UID with
the dashes removed, cut to 32 characters. -/
def DefaultLoadBalancerName (service : Service) : String :=
  String.mk ((("a" ++ service.UID).data.filter (fun c => c != '-')).take 32)

/-- Source: `loadBalancer.GetLoadBalancerName`. -/
def GetLoadBalancerName (_lb : loadBalancer) (_clusterName : String) (service : Service) :
    String :=
  DefaultLoadBalancerName service

/-- Source: `loadBalancer.getLoadBalancerByName`; `(nil, nil)` when the object
is absent. -/
def getLoadBalancerByName (lb : loadBalancer) (name : String) (w : World) :
    (Option Service × Option Error) × World :=
  match w.GetService ⟨lb.namespace_, name⟩ with
  | (.error err, w1) =>
    if IsNotFound err then
      ((none, none), w1)
    else
      ((none, some err), w1)
  | (.ok svc, w1) => ((some svc, none), w1)

/-- Source: `loadBalancer.GetLoadBalancer`; the result is `(status, exists, err)`. -/
def GetLoadBalancer (lb : loadBalancer) (clusterName : String) (service : Service) (w : World) :
    (Option LoadBalancerStatus × Bool × Option Error) × World :=
  let name := GetLoadBalancerName lb clusterName service
  match getLoadBalancerByName lb name w with
  | ((_, some err), w1) => ((none, false, some err), w1)
  | ((none, none), w1) => ((none, false, none), w1)
  | ((some svc, none), w1) => ((some svc.Status.LoadBalancer, true, none), w1)

/-- Source: `loadBalancer.createLoadBalancerPorts`: a zero-valued entry per
exposed port with name, protocol, port and integer target port filled in. -/
def createLoadBalancerPorts (service : Service) : List ServicePort :=
  service.Spec.Ports.map (fun port =>
    { Name := port.Name,
      Protocol := port.Protocol,
      AppProtocol := none,
      Port := port.Port,
      TargetPort := { Type_ := intstr.Int, IntVal := port.NodePort, StrVal := "" },
      NodePort := 0 })

/-- Go `equality.Semantic.DeepEqual` on two port lists: structural equality of
every field, a `nil` slice being equal to an empty one. -/
def SemanticDeepEqual (a b : List ServicePort) : Bool := a == b

/-- Source: `loadBalancer.updateLoadBalancerPorts`; the result is the service
object after the call and the error. -/
def updateLoadBalancerPorts (service : Service) (ports : List ServicePort) (w : World) :
    (Service × Option Error) × World :=
  if !SemanticDeepEqual ports service.Spec.Ports then
    let service := { service with Spec := { service.Spec with Ports := ports } }
    match w.Update service with
    | (some err, w1) => ((service, some err), w1)
    | (none, w1) => ((service, none), w1)
  else
    ((service, none), w)

/-- Source: `loadBalancer.createLoadBalancer`; the result is the built object
and the error of the create call. -/
def createLoadBalancer (lb : loadBalancer) (name : String) (service : Service)
    (vmLabels serviceLabels : StringMap) (ports : List ServicePort) (w : World) :
    (Service × Option Error) × World :=
  let svc : Service :=
    { Name := name,
      Namespace := lb.namespace_,
      UID := "",
      Annotations := service.Annotations,
      Labels := serviceLabels,
      Spec :=
        { Ports := ports,
          Type_ := ServiceTypeLoadBalancer,
          Selector := ∅,
          ExternalIPs := [],
          LoadBalancerClass := none,
          LoadBalancerIP := "",
          HealthCheckNodePort := 0,
          ExternalTrafficPolicy := service.Spec.ExternalTrafficPolicy },
      Status := { LoadBalancer := { Ingress := [] } } }
  let svc := if !lb.config.SelectorLess then
    { svc with Spec := { svc.Spec with Selector := vmLabels } } else svc
  let svc := if service.Spec.ExternalIPs.length > 0 then
    { svc with Spec := { svc.Spec with ExternalIPs := service.Spec.ExternalIPs } } else svc
  let svc := match service.Spec.LoadBalancerClass with
    | some cls => { svc with Spec := { svc.Spec with LoadBalancerClass := some cls } }
    | none => svc
  let svc := if service.Spec.LoadBalancerIP ≠ "" then
    { svc with Spec := { svc.Spec with LoadBalancerIP := service.Spec.LoadBalancerIP } } else svc
  let svc := if service.Spec.HealthCheckNodePort > 0 then
    { svc with Spec := { svc.Spec with HealthCheckNodePort := service.Spec.HealthCheckNodePort } }
    else svc
  let (err, w1) := w.Create svc
  ((svc, err), w1)

/-- Go `wait.PollUntilContextTimeout` with `immediate = true`, the clock being
counted in poll intervals: `condition` is tried at once and then after every
interval, at most `attempts` times in all; `σ` is the state captured by the
condition closure. -/
def PollUntilContextTimeout {σ : Type}
    (condition : σ → World → (σ × Bool × Option Error) × World) :
    Nat → σ → World → (σ × Option Error) × World
  | 0, s, w => ((s, some Error.deadlineExceeded), w)
  | n + 1, s, w =>
    match condition s w with
    | ((s1, _, some err), w1) => ((s1, some err), w1)
    | ((s1, true, none), w1) => ((s1, none), w1)
    | ((s1, false, none), w1) => PollUntilContextTimeout condition n s1 w1.tick

/-- Number of polls that fit into the configured timeout (the immediate one
included). -/
def pollAttempts (config : LoadBalancerConfig) : Nat :=
  (config.CreationPollTimeout / config.CreationPollInterval).toNat + 1

/-- The condition closure of `EnsureLoadBalancer`; it captures `svc`. -/
def ingressCondition (lb : loadBalancer) (name : String) (svc : Service) (w : World) :
    (Service × Bool × Option Error) × World :=
  if svc.Status.LoadBalancer.Ingress.length > 0 then
    ((svc, true, none), w)
  else
    match getLoadBalancerByName lb name w with
    | ((_, some err), w1) => ((svc, false, some err), w1)
    | ((some s, none), w1) =>
      if s.Status.LoadBalancer.Ingress.length > 0 then
        ((s, true, none), w1)
      else
        ((svc, false, none), w1)
    | ((none, none), w1) => ((svc, false, none), w1)

/-- Source: `loadBalancer.EnsureLoadBalancer`; the result is `(status, err)`. -/
def EnsureLoadBalancer (lb : loadBalancer) (clusterName : String) (service : Service)
    (_nodes : List Node) (w : World) : (Option LoadBalancerStatus × Option Error) × World :=
  let name := GetLoadBalancerName lb clusterName service
  match getLoadBalancerByName lb name w with
  | ((_, some err), w1) => ((none, some err), w1)
  | ((some svc, none), w1) =>
    let ports := createLoadBalancerPorts service
    let ((svc, err), w2) := updateLoadBalancerPorts svc ports w1
    ((some svc.Status.LoadBalancer, err), w2)
  | ((none, none), w1) =>
    let ports := createLoadBalancerPorts service
    let vmLabels : StringMap := (∅ : StringMap).insert "cluster.x-k8s.io/cluster-name" clusterName
    let svcLabels : StringMap :=
      (((∅ : StringMap).insert "cluster.x-k8s.io/tenant-service-name" service.Name).insert
        "cluster.x-k8s.io/tenant-service-namespace" service.Namespace).insert
        "cluster.x-k8s.io/cluster-name" clusterName
    let svcLabels := lb.infraLabels.entries.foldl (fun m e => m.insert e.1 e.2) svcLabels
    match createLoadBalancer lb name service vmLabels svcLabels ports w1 with
    | ((_, some err), w2) => ((none, some err), w2)
    | ((svc, none), w2) =>
      match PollUntilContextTimeout (ingressCondition lb name) (pollAttempts lb.config) svc w2 with
      | ((_, some err), w3) => ((none, some err), w3)
      | ((svc, none), w3) => ((some svc.Status.LoadBalancer, none), w3)

/-- Source: `loadBalancer.UpdateLoadBalancer`. -/
def UpdateLoadBalancer (lb : loadBalancer) (clusterName : String) (service : Service)
    (_nodes : List Node) (w : World) : Option Error × World :=
  let name := GetLoadBalancerName lb clusterName service
  match w.GetService ⟨lb.namespace_, name⟩ with
  | (.error err, w1) => (some err, w1)
  | (.ok svc, w1) =>
    let ports := createLoadBalancerPorts service
    let ((_, err), w2) := updateLoadBalancerPorts svc ports w1
    (err, w2)

/-- Source: `loadBalancer.EnsureLoadBalancerDeleted`. -/
def EnsureLoadBalancerDeleted (lb : loadBalancer) (clusterName : String) (service : Service)
    (w : World) : Option Error × World :=
  let name := GetLoadBalancerName lb clusterName service
  match getLoadBalancerByName lb name w with
  | ((_, some err), w1) => (some err, w1)
  | ((some svc, none), w1) =>
    match w1.Delete svc with
    | (some err, w2) => (some err, w2)
    | (none, w2) => (none, w2)
  | ((none, none), w1) => (none, w1)

/-! ## Auxiliary notions used in the statements -/

/-- Characters of the token grammar `[0-9A-Za-z_-]`, as the specification
words it. -/
def TokenChar (c : Char) : Prop :=
  ('0' ≤ c ∧ c ≤ '9') ∨ ('A' ≤ c ∧ c ≤ 'Z') ∨ ('a' ≤ c ∧ c ≤ 'z') ∨ c = '_' ∨ c = '-'

instance (c : Char) : Decidable (TokenChar c) := by
  unfold TokenChar; infer_instance

/-- Strings of the form `dvp://` followed by one or more token characters and
nothing else, as the specification words it. -/
def WellFormedProviderID (s : String) : Prop :=
  ∃ tok : List Char, tok ≠ [] ∧ (∀ c ∈ tok, TokenChar c) ∧ s = String.mk ("dvp://".data ++ tok)

/-- Remove repeated entries from a list, keeping the first occurrence of each. -/
def keepFirst {α : Type} [DecidableEq α] : List α → List α
  | [] => []
  | a :: l => a :: (keepFirst l).filter (fun b => b ≠ a)

/-- The internal-type entries of an address list. -/
def internalAddresses (addrs : List NodeAddress) : List NodeAddress :=
  addrs.filter (fun a => a.Type_ = NodeInternalIP)

/-- The four fields of a port entry that the specification's port-diff rule
names: name, protocol, port and target port. -/
def ServicePort.listener (p : ServicePort) : String × String × Int × IntOrString :=
  (p.Name, p.Protocol, p.Port, p.TargetPort)

/-- The world right after request `c` has been issued. -/
def World.after (w : World) (c : Call) : World :=
  { w with log := w.log ++ [c], faults := w.faults.tail }

/-- An external action that rewrites or removes a stored object, as opposed to
the platform assigning ingress points. -/
def PlatformAction.drift : PlatformAction → Bool
  | .write _ => true
  | .remove _ => true
  | _ => false

/-- The objects passed to `create` in a list of requests. -/
def createdObjects (log : List Call) : List Service :=
  log.filterMap (fun c => match c with
    | .create obj => some obj
    | _ => none)

/-- The objects passed to `update` in a list of requests. -/
def updatedObjects (log : List Call) : List Service :=
  log.filterMap (fun c => match c with
    | .update obj => some obj
    | _ => none)

/-- The objects passed to `delete` in a list of requests. -/
def deletedObjects (log : List Call) : List Service :=
  log.filterMap (fun c => match c with
    | .delete obj => some obj
    | _ => none)

/-- Every stored object under `key` has the port list `ports`. -/
def PortsUnder (services : List Service) (key : NamespacedName) (ports : List ServicePort) :
    Prop :=
  ∀ s ∈ services, s.key = key → s.Spec.Ports = ports

/-! ## Example objects

The scenario of the specification: exposed service `web` in namespace
`tenant-a`, cluster `demo`, provider namespace `infra`. -/

/-- A load balancer receiver with the default poll settings. -/
def exampleLB : loadBalancer :=
  { namespace_ := "infra", config := ⟨5, 300, false⟩, infraLabels := ∅ }

/-- The exposed service `web` with the given port list. -/
def exampleExposed (ports : List ServicePort) : Service :=
  { Name := "web",
    Namespace := "tenant-a",
    UID := "1234-abcd",
    Annotations := ∅,
    Labels := ∅,
    Spec :=
      { Ports := ports,
        Type_ := ServiceTypeLoadBalancer,
        Selector := ∅,
        ExternalIPs := [],
        LoadBalancerClass := none,
        LoadBalancerIP := "",
        HealthCheckNodePort := 0,
        ExternalTrafficPolicy := "Cluster" },
    Status := ⟨⟨[]⟩⟩ }

/-- Exposed port `http 80/TCP`, node port 30080. -/
def httpPort : ServicePort := ⟨"http", "TCP", none, 80, ⟨intstr.Int, 8080, ""⟩, 30080⟩

/-- Exposed port `https 443/TCP`, node port 30443. -/
def httpsPort : ServicePort := ⟨"https", "TCP", none, 443, ⟨intstr.Int, 8443, ""⟩, 30443⟩

/-- A backing service of `web` as it may sit in the store, with the given port
list and ingress points. -/
def exampleBacking (ports : List ServicePort) (ingress : List LoadBalancerIngress) : Service :=
  { Name := "a1234abcd",
    Namespace := "infra",
    UID := "",
    Annotations := ∅,
    Labels := ∅,
    Spec :=
      { Ports := ports,
        Type_ := ServiceTypeLoadBalancer,
        Selector := ∅,
        ExternalIPs := [],
        LoadBalancerClass := none,
        LoadBalancerIP := "",
        HealthCheckNodePort := 0,
        ExternalTrafficPolicy := "Cluster" },
    Status := ⟨⟨ingress⟩⟩ }

/-- A world holding the given services, with no injected failure and the given
platform script. -/
def exampleWorld (services : List Service) (platform : List PlatformAction) : World :=
  { services := services, instances := [], nodes := [], faults := [], platform := platform,
    log := [] }

/-- A load balancer receiver with one configured infra label. -/
def exampleLabelledLB : loadBalancer :=
  { namespace_ := "infra", config := ⟨5, 300, false⟩,
    infraLabels := (∅ : StringMap).insert "env" "prod" }

/-- A load balancer receiver whose configured infra label uses the key of the
tenant service-name back-reference. -/
def exampleClashingLB : loadBalancer :=
  { namespace_ := "infra", config := ⟨5, 300, false⟩,
    infraLabels := (∅ : StringMap).insert "cluster.x-k8s.io/tenant-service-name" "other" }

/-! ### Matcher lemmas -/

theorem inClass_token (c : Char) :
    inClass [('0', '9'), ('A', 'Z'), ('a', 'z'), ('_', '_'), ('-', '-')] c = true ↔
      TokenChar c := by
  unfold inClass TokenChar
  simp only [List.any_cons, List.any_nil, Bool.or_false, Bool.or_eq_true, Bool.and_eq_true,
    decide_eq_true_eq]
  constructor
  · rintro (h | h | h | h | h)
    · exact Or.inl h
    · exact Or.inr (Or.inl h)
    · exact Or.inr (Or.inr (Or.inl h))
    · exact Or.inr (Or.inr (Or.inr (Or.inl (le_antisymm h.2 h.1))))
    · exact Or.inr (Or.inr (Or.inr (Or.inr (le_antisymm h.2 h.1))))
  · rintro (h | h | h | h | h)
    · exact Or.inl h
    · exact Or.inr (Or.inl h)
    · exact Or.inr (Or.inr (Or.inl h))
    · exact Or.inr (Or.inr (Or.inr (Or.inl ⟨h ▸ le_refl _, h ▸ le_refl _⟩)))
    · exact Or.inr (Or.inr (Or.inr (Or.inr ⟨h ▸ le_refl _, h ▸ le_refl _⟩)))

theorem run_literal_append (cs t : List Char) (r : Regex) (p : Nat) (c : List (Nat × List Char))
    (k : MatchState → Option MatchState) :
    (Regex.literal cs r).run ⟨p, cs ++ t, c⟩ k = r.run ⟨p + cs.length, t, c⟩ k := by
  induction cs generalizing p with
  | nil => simp [Regex.literal]
  | cons x xs ih =>
    simp only [Regex.literal, Regex.run, stepChar, List.cons_append, beq_self_eq_true, if_true,
      List.length_cons]
    rw [ih]
    congr 2
    omega

theorem run_literal_none (cs l : List Char) (r : Regex) (p : Nat) (c : List (Nat × List Char))
    (k : MatchState → Option MatchState) (h : ¬ cs <+: l) :
    (Regex.literal cs r).run ⟨p, l, c⟩ k = none := by
  induction cs generalizing p l with
  | nil => exact absurd ( List.nil_prefix) h
  | cons x xs ih =>
    simp only [Regex.literal, Regex.run, stepChar]
    cases l with
    | nil => rfl
    | cons y ys =>
      by_cases hxy : y = x
      · subst hxy
        simp only [beq_self_eq_true, if_true]
        apply ih
        intro hp
        exact h ((List.prefix_cons_inj y).mpr hp)
      · simp [hxy]

theorem repeatGreedy_stepChar (q : Char → Bool) (k : MatchState → Option MatchState)
    (hk : ∀ s, s.rest ≠ [] → k s = none) (l : List Char) :
    ∀ (n p : Nat) (c : List (Nat × List Char)), l.length ≤ n →
      repeatGreedy (stepChar q) n ⟨p, l, c⟩ k =
        if l.all q then k ⟨p + l.length, [], c⟩ else none := by
  induction l with
  | nil =>
    intro n p c _
    cases n with
    | zero => simp [repeatGreedy]
    | succ m => simp [repeatGreedy, stepChar]
  | cons x xs ih =>
    intro n p c hn
    cases n with
    | zero => simp at hn
    | succ m =>
      have hm : xs.length ≤ m := by simpa using hn
      simp only [repeatGreedy, stepChar, List.all_cons, List.length_cons]
      by_cases hx : q x = true
      · simp only [hx, if_true, Bool.true_and]
        rw [ih m (p + 1) c hm]
        by_cases hxs : xs.all q = true
        · simp only [hxs, if_true]
          have : p + 1 + xs.length = p + (xs.length + 1) := by omega
          rw [this]
          cases hres : k ⟨p + (xs.length + 1), [], c⟩ with
          | none => simp [hk ⟨p, x :: xs, c⟩ (by simp)]
          | some r => rfl
        · simp [hxs, hk ⟨p, x :: xs, c⟩ (by simp)]
      · simp [hx, hk ⟨p, x :: xs, c⟩ (by simp)]

theorem run_cls_eq (rs : List (Char × Char)) : Regex.run (.cls rs) = stepChar (inClass rs) := by
  funext s k
  simp [Regex.run]

theorem run_cat (a b : Regex) (s : MatchState) (k : MatchState → Option MatchState) :
    (Regex.cat a b).run s k = a.run s (fun s1 => b.run s1 k) := rfl

theorem run_plus (r : Regex) (s : MatchState) (k : MatchState → Option MatchState) :
    (Regex.plus r).run s k = r.run s (fun s1 => repeatGreedy r.run s1.rest.length s1 k) := rfl

theorem run_cap (i : Nat) (r : Regex) (s : MatchState) (k : MatchState → Option MatchState) :
    (Regex.cap i r).run s k =
      r.run s (fun s1 => k { s1 with caps := (i, s.rest.take (s1.pos - s.pos)) :: s1.caps }) :=
  rfl

theorem run_endText (s : MatchState) (k : MatchState → Option MatchState) :
    Regex.endText.run s k = if s.rest.isEmpty then k s else none := rfl

theorem run_beginText (s : MatchState) (k : MatchState → Option MatchState) :
    Regex.beginText.run s k = if s.pos = 0 then k s else none := rfl

theorem run_token (rs : List (Char × Char)) (tok : List Char) (p : Nat) :
    (Regex.cat (.cap 1 (.plus (.cls rs))) .endText).run ⟨p, tok, []⟩ some =
      if tok ≠ [] ∧ tok.all (inClass rs) = true then
        some ⟨p + tok.length, [], [(1, tok)]⟩
      else none := by
  rw [run_cat, run_cap, run_plus, run_cls_eq]
  cases tok with
  | nil => simp [stepChar]
  | cons x xs =>
    simp only [stepChar]
    by_cases hx : inClass rs x = true
    · simp only [hx, if_true]
      rw [repeatGreedy_stepChar (inClass rs) _ _ xs xs.length (p + 1) [] (le_refl _)]
      · by_cases hxs : xs.all (inClass rs) = true
        · have e : p + 1 + xs.length - p = xs.length + 1 := by omega
          have e2 : p + 1 + xs.length = p + (xs.length + 1) := by omega
          simp [hxs, hx, e, e2, run_endText]
        · simp [hxs, hx]
      · intro s hs
        cases hr : s.rest with
        | nil => exact absurd hr hs
        | cons y ys => simp [hr, run_endText]
    · simp [hx]

theorem providerIDRegexp_eq :
    providerIDRegexp =
      .cat .beginText
        (Regex.literal "dvp://".data
          (.cat (.cap 1 (.plus (.cls [('0', '9'), ('A', 'Z'), ('a', 'z'), ('_', '_'), ('-', '-')])))
            .endText)) := by
  have hd : (ProviderName ++ "://").data = "dvp://".data := by decide
  unfold providerIDRegexp
  rw [hd]

theorem searchFrom_providerID_pos (l : List Char) :
    ∀ off, 0 < off → providerIDRegexp.searchFrom off l = none := by
  induction l with
  | nil =>
    intro off h
    have : off ≠ 0 := by omega
    simp [Regex.searchFrom, providerIDRegexp_eq, run_cat, run_beginText, this]
  | cons x xs ih =>
    intro off h
    have : off ≠ 0 := by omega
    simp only [Regex.searchFrom, providerIDRegexp_eq, run_cat, run_beginText, this, if_false]
    exact ih (off + 1) (by omega)

theorem searchFrom_providerID_zero (l : List Char) :
    providerIDRegexp.searchFrom 0 l =
      (providerIDRegexp.run ⟨0, l, []⟩ some).map (fun s => (0, s)) := by
  cases l with
  | nil => rfl
  | cons x xs =>
    simp only [Regex.searchFrom]
    cases h : providerIDRegexp.run ⟨0, x :: xs, []⟩ some with
    | none => simp [searchFrom_providerID_pos xs 1 (by omega)]
    | some s => rfl

theorem all_inClass_iff (tok : List Char) :
    tok.all (inClass [('0', '9'), ('A', 'Z'), ('a', 'z'), ('_', '_'), ('-', '-')]) = true ↔
      ∀ c ∈ tok, TokenChar c := by
  simp [List.all_eq_true, inClass_token]

theorem run_providerID_match (tok : List Char) (h0 : tok ≠ []) (h : ∀ c ∈ tok, TokenChar c) :
    providerIDRegexp.run ⟨0, "dvp://".data ++ tok, []⟩ some =
      some ⟨6 + tok.length, [], [(1, tok)]⟩ := by
  rw [providerIDRegexp_eq, run_cat, run_beginText, if_pos rfl, run_literal_append, run_token,
    if_pos ⟨h0, (all_inClass_iff tok).mpr h⟩]
  rfl

theorem run_providerID_none (l : List Char)
    (h : ¬ ∃ tok : List Char, tok ≠ [] ∧ (∀ c ∈ tok, TokenChar c) ∧ l = "dvp://".data ++ tok) :
    providerIDRegexp.run ⟨0, l, []⟩ some = none := by
  rw [providerIDRegexp_eq, run_cat, run_beginText, if_pos rfl]
  by_cases hp : "dvp://".data <+: l
  · obtain ⟨t, rfl⟩ := hp
    rw [run_literal_append, run_token, if_neg]
    rintro ⟨h0, hall⟩
    exact h ⟨t, h0, (all_inClass_iff t).mp hall, rfl⟩
  · exact run_literal_none _ _ _ _ _ _ hp

/-- Parsing a well-formed provider ID yields its token and no error. -/
theorem ParseProviderID_match (tok : List Char) (h0 : tok ≠ []) (h : ∀ c ∈ tok, TokenChar c) :
    ParseProviderID (String.mk ("dvp://".data ++ tok)) = (String.mk tok, none) := by
  have hn : providerIDRegexp.numCap = 1 := by decide
  unfold ParseProviderID Regex.FindStringSubmatch
  rw [searchFrom_providerID_zero, run_providerID_match tok h0 h, hn]
  simp [List.lookup]

/-- Parsing anything else yields the empty instance ID and the format error. -/
theorem ParseProviderID_noMatch (s : String) (h : ¬ WellFormedProviderID s) :
    ParseProviderID s = ("", some (Error.invalidProviderID s)) := by
  have : providerIDRegexp.run ⟨0, s.data, []⟩ some = none := by
    apply run_providerID_none
    rintro ⟨tok, h0, hall, he⟩
    exact h ⟨tok, h0, hall, by rw [← he]⟩
  unfold ParseProviderID Regex.FindStringSubmatch
  rw [searchFrom_providerID_zero, this]
  simp

/-! ### Provider ID codec -/

theorem GetProviderID_data (name : String) :
    GetProviderID name = String.mk ("dvp://".data ++ name.data) := by
  apply String.ext
  simp only [GetProviderID, String.data_append]
  have hd : ProviderName.data ++ "://".data = "dvp://".data := by decide
  rw [hd]

/-- C1. Provider ID round-trip: for every non-empty instance name over the
characters `[0-9A-Za-z_-]`, parsing the provider ID built from the name succeeds
(no error) and returns exactly the name. -/
theorem ParseProviderID_GetProviderID (name : String) (hne : name ≠ "")
    (htok : ∀ c ∈ name.data, TokenChar c) :
    ParseProviderID (GetProviderID name) = (name, none) := by
  have h0 : name.data ≠ [] := by
    intro h
    apply hne
    apply String.ext
    rw [h]
  rw [GetProviderID_data, ParseProviderID_match name.data h0 htok]

/-- Witness for C1 at the instance name `vm-01_a`. -/
theorem ParseProviderID_GetProviderID_witness :
    ("vm-01_a" ≠ "" ∧ ∀ c ∈ "vm-01_a".data, TokenChar c) ∧
      ParseProviderID (GetProviderID "vm-01_a") = ("vm-01_a", none) :=
  ⟨⟨by decide, by decide⟩, ParseProviderID_GetProviderID "vm-01_a" (by decide) (by decide)⟩

/-- C2. For every string `s`, `ParseProviderID s` returns an error exactly when
`s` is not `dvp://` followed by one or more characters of `[0-9A-Za-z_-]` and
nothing else; in that case the instance ID returned is empty and the error is
the format error for `s`; otherwise the result is the text after `dvp://` and no
error. -/
theorem ParseProviderID_error_iff (s : String) :
    ((ParseProviderID s).2 ≠ none ↔ ¬ WellFormedProviderID s) ∧
      ((ParseProviderID s).2 ≠ none →
        ParseProviderID s = ("", some (Error.invalidProviderID s))) ∧
      ((ParseProviderID s).2 = none →
        ParseProviderID s = (String.mk (s.data.drop 6), none)) := by
  by_cases h : WellFormedProviderID s
  · obtain ⟨tok, h0, hall, rfl⟩ := h
    have hw : WellFormedProviderID (String.mk ("dvp://".data ++ tok)) := ⟨tok, h0, hall, rfl⟩
    have hd : ("dvp://".data ++ tok).drop 6 = tok := by
      have : "dvp://".data.length = 6 := by decide
      rw [← this, List.drop_left]
    rw [ParseProviderID_match tok h0 hall]
    refine ⟨⟨fun hc => absurd rfl hc, fun hc => absurd hw hc⟩, fun hc => absurd rfl hc, fun _ => ?_⟩
    rw [hd]
  · rw [ParseProviderID_noMatch s h]
    simp [h]

/-! ### Node addresses -/

theorem AddToNodeAddresses_eq (addresses : List NodeAddress) (add : NodeAddress) :
    AddToNodeAddresses addresses add = if add ∈ addresses then addresses else addresses ++ [add] := by
  unfold AddToNodeAddresses
  have : (addresses.any fun existing =>
      existing.Address == add.Address && existing.Type_ == add.Type_) = true ↔ add ∈ addresses := by
    simp only [List.any_eq_true, Bool.and_eq_true, beq_iff_eq]
    constructor
    · rintro ⟨x, hx, h1, h2⟩
      have : x = add := by
        cases x; cases add; simp_all
      exact this ▸ hx
    · intro h
      exact ⟨add, h, rfl, rfl⟩
  by_cases h : add ∈ addresses
  · rw [if_pos (this.mpr h), if_pos h]
  · rw [if_neg (fun hc => h (this.mp hc)), if_neg h]

theorem foldl_add_filter (l acc : List NodeAddress) :
    l.foldl (fun addrs prevAddr =>
        if prevAddr.Type_ = NodeInternalIP then AddToNodeAddresses addrs prevAddr else addrs) acc =
      (internalAddresses l).foldl AddToNodeAddresses acc := by
  induction l generalizing acc with
  | nil => rfl
  | cons a l ih =>
    by_cases h : a.Type_ = NodeInternalIP
    · simp [internalAddresses, List.filter_cons, h, List.foldl_cons]
      exact ih _
    · simp [internalAddresses, List.filter_cons, h, List.foldl_cons]
      exact ih _

theorem foldl_add_keepFirst (l acc : List NodeAddress) :
    l.foldl AddToNodeAddresses acc = acc ++ (keepFirst l).filter (fun b => b ∉ acc) := by
  induction l generalizing acc with
  | nil => simp [keepFirst]
  | cons a l ih =>
    rw [List.foldl_cons, ih, AddToNodeAddresses_eq]
    by_cases h : a ∈ acc
    · simp only [if_pos h, keepFirst, List.filter_cons, List.filter_filter]
      simp only [h, not_true_eq_false, decide_False, if_false]
      congr 1
      apply List.filter_congr
      intro b _
      by_cases hb : b ∈ acc
      · simp [hb]
      · have : b ≠ a := fun e => hb (e ▸ h)
        simp [hb, this]
    · simp only [if_neg h, keepFirst, List.filter_cons, List.filter_filter]
      simp only [h, not_false_eq_true, decide_True, if_true, List.append_assoc,
        List.singleton_append]
      congr 2
      apply List.filter_congr
      intro b _
      by_cases hb : b ∈ acc
      · simp [hb]
      · by_cases hba : b = a
        · simp [hb, hba]
        · simp [hb, hba]

theorem keepFirst_sublist {α : Type} [DecidableEq α] (l : List α) : (keepFirst l).Sublist l := by
  induction l with
  | nil => exact List.Sublist.slnil
  | cons a l ih =>
    exact List.Sublist.cons₂ a ((List.filter_sublist _).trans ih)

theorem mem_keepFirst {α : Type} [DecidableEq α] (l : List α) (b : α) :
    b ∈ keepFirst l ↔ b ∈ l := by
  induction l with
  | nil => simp [keepFirst]
  | cons a l ih =>
    by_cases h : b = a
    · simp [keepFirst, h]
    · simp [keepFirst, h, ih]

theorem keepFirst_nodup {α : Type} [DecidableEq α] (l : List α) : (keepFirst l).Nodup := by
  induction l with
  | nil => exact List.nodup_nil
  | cons a l ih =>
    simp only [keepFirst, List.nodup_cons, List.mem_filter]
    exact ⟨by simp, ih.filter _⟩

theorem keepFirst_of_nodup {α : Type} [DecidableEq α] (l : List α) (h : l.Nodup) :
    keepFirst l = l := by
  induction l with
  | nil => rfl
  | cons a l ih =>
    rw [List.nodup_cons] at h
    simp only [keepFirst, ih h.2]
    congr 1
    rw [List.filter_eq_self]
    intro b hb
    have : b ≠ a := fun e => h.1 (e ▸ hb)
    simp [this]

theorem getNodeAddresses_empty (status : VirtualMachineStatus) (prevAddrs : List NodeAddress)
    (h : status.IPAddress = "") :
    getNodeAddresses status prevAddrs = keepFirst (internalAddresses prevAddrs) := by
  simp only [getNodeAddresses, h, ne_eq, not_true_eq_false, if_false, Bool.not_false, if_true]
  rw [foldl_add_filter, foldl_add_keepFirst]
  simp

theorem getNodeAddresses_nonempty (status : VirtualMachineStatus) (prevAddrs : List NodeAddress)
    (h : status.IPAddress ≠ "") :
    getNodeAddresses status prevAddrs = [⟨NodeInternalIP, status.IPAddress⟩] := by
  simp [getNodeAddresses, h, AddToNodeAddresses]

theorem InstanceMetadata_addresses (i : instancesV2) (node : Node) (w w1 w2 : World)
    (vm : VirtualMachine) (md : InstanceMetadata)
    (hget : GetByProviderID node.Spec.ProviderID i.namespace_ w = ((some vm, none), w1))
    (hmd : i.InstanceMetadata node w = ((some md, none), w2)) :
    md.NodeAddresses = getNodeAddresses vm.Status node.Status.Addresses := by
  unfold instancesV2.InstanceMetadata at hmd
  rw [hget] at hmd
  simp only at hmd
  split at hmd
  · simp at hmd
  · simp only [Prod.mk.injEq, Option.some.injEq, and_true] at hmd
    rw [← hmd.1]

theorem InstanceMetadata_ok (i : instancesV2) (node : Node) (w w1 : World) (vm : VirtualMachine)
    (hget : GetByProviderID node.Spec.ProviderID i.namespace_ w = ((some vm, none), w1))
    (hreg : (getRegionAndZone i vm.Status.NodeName w1).1.2.2 = none) :
    i.InstanceMetadata node w =
      ((some { ProviderID := GetProviderID vm.Name,
               NodeAddresses := getNodeAddresses vm.Status node.Status.Addresses,
               Region := (getRegionAndZone i vm.Status.NodeName w1).1.1,
               Zone := (getRegionAndZone i vm.Status.NodeName w1).1.2.1 }, none),
        (getRegionAndZone i vm.Status.NodeName w1).2) := by
  unfold instancesV2.InstanceMetadata
  rw [hget]
  simp only
  rcases hr : getRegionAndZone i vm.Status.NodeName w1 with ⟨⟨r, z, e⟩, w2⟩
  rw [hr] at hreg
  simp only at hreg
  subst hreg
  rfl

/-- C5, as stated, fails: with an empty live address and a prior list holding
the same internal-type address twice, only one entry is returned, not both. -/
theorem getNodeAddresses_fallback_counterexample :
    (⟨"Running", "", "node-1"⟩ : VirtualMachineStatus).IPAddress = "" ∧
      internalAddresses [⟨"InternalIP", "10.0.0.1"⟩, ⟨"InternalIP", "10.0.0.1"⟩] =
        [⟨"InternalIP", "10.0.0.1"⟩, ⟨"InternalIP", "10.0.0.1"⟩] ∧
      getNodeAddresses ⟨"Running", "", "node-1"⟩
          [⟨"InternalIP", "10.0.0.1"⟩, ⟨"InternalIP", "10.0.0.1"⟩] =
        [⟨"InternalIP", "10.0.0.1"⟩] := by
  decide

/-- C5, amended. Address fallback: when the live internal address is empty, the
computed addresses are the internal-type entries of the prior list in their
original order, unchanged, with no entry of any other type, each distinct entry
once (a repeated identical entry is kept at its first occurrence only); hence
when the prior internal-type entries are pairwise distinct the result is exactly
all of them. These are the addresses `InstanceMetadata` reports, and it does
report them once the instance lookup and the topology lookup succeed. -/
theorem getNodeAddresses_fallback (status : VirtualMachineStatus)
    (prevAddrs : List NodeAddress) (h : status.IPAddress = "") :
    getNodeAddresses status prevAddrs = keepFirst (internalAddresses prevAddrs) ∧
      (getNodeAddresses status prevAddrs).Sublist (internalAddresses prevAddrs) ∧
      (∀ a ∈ internalAddresses prevAddrs, a ∈ getNodeAddresses status prevAddrs) ∧
      ((internalAddresses prevAddrs).Nodup →
        getNodeAddresses status prevAddrs = internalAddresses prevAddrs) ∧
      (∀ (i : instancesV2) (node : Node) (w w1 w2 : World) (vm : VirtualMachine)
          (md : InstanceMetadata),
        vm.Status = status → node.Status.Addresses = prevAddrs →
        GetByProviderID node.Spec.ProviderID i.namespace_ w = ((some vm, none), w1) →
        i.InstanceMetadata node w = ((some md, none), w2) →
        md.NodeAddresses = keepFirst (internalAddresses prevAddrs)) ∧
      (∀ (i : instancesV2) (node : Node) (w w1 : World) (vm : VirtualMachine),
        vm.Status = status → node.Status.Addresses = prevAddrs →
        GetByProviderID node.Spec.ProviderID i.namespace_ w = ((some vm, none), w1) →
        (getRegionAndZone i vm.Status.NodeName w1).1.2.2 = none →
        ∃ md w2, i.InstanceMetadata node w = ((some md, none), w2) ∧
          md.NodeAddresses = keepFirst (internalAddresses prevAddrs)) := by
  have e := getNodeAddresses_empty status prevAddrs h
  refine ⟨e, ?_, ?_, ?_, ?_, ?_⟩
  · rw [e]
    exact keepFirst_sublist _
  · intro a ha
    rw [e]
    exact (mem_keepFirst _ a).mpr ha
  · intro hn
    rw [e, keepFirst_of_nodup _ hn]
  · intro i node w w1 w2 vm md hs hp hget hmd
    rw [InstanceMetadata_addresses i node w w1 w2 vm md hget hmd, hs, hp, e]
  · intro i node w w1 vm hs hp hget hreg
    refine ⟨_, _, InstanceMetadata_ok i node w w1 vm hget hreg, ?_⟩
    simp only
    rw [hs, hp, e]

/-- Witness for C5 (amended): two distinct prior internal-type addresses among
other entries are both returned. -/
theorem getNodeAddresses_fallback_witness :
    (⟨"Running", "", "node-1"⟩ : VirtualMachineStatus).IPAddress = "" ∧
      getNodeAddresses ⟨"Running", "", "node-1"⟩
          [⟨"InternalIP", "10.0.0.1"⟩, ⟨"Hostname", "node-1"⟩, ⟨"InternalIP", "fd00::1"⟩] =
        [⟨"InternalIP", "10.0.0.1"⟩, ⟨"InternalIP", "fd00::1"⟩] :=
  ⟨rfl, ((getNodeAddresses_fallback ⟨"Running", "", "node-1"⟩
    [⟨"InternalIP", "10.0.0.1"⟩, ⟨"Hostname", "node-1"⟩, ⟨"InternalIP", "fd00::1"⟩] rfl).2.2.2.1
      (by decide)).trans (by decide)⟩

/-- C6. Live address preference: when the instance has a non-empty live
internal address `a`, the computed addresses are exactly
`[(InternalIP, a)]` whatever the prior node address list holds. These are the
addresses `InstanceMetadata` reports, and it does report them once the instance
lookup and the topology lookup succeed. -/
theorem getNodeAddresses_live (status : VirtualMachineStatus) (prevAddrs : List NodeAddress)
    (h : status.IPAddress ≠ "") :
    getNodeAddresses status prevAddrs = [⟨NodeInternalIP, status.IPAddress⟩] ∧
      (∀ (i : instancesV2) (node : Node) (w w1 w2 : World) (vm : VirtualMachine)
          (md : InstanceMetadata),
        vm.Status = status → node.Status.Addresses = prevAddrs →
        GetByProviderID node.Spec.ProviderID i.namespace_ w = ((some vm, none), w1) →
        i.InstanceMetadata node w = ((some md, none), w2) →
        md.NodeAddresses = [⟨NodeInternalIP, status.IPAddress⟩]) ∧
      (∀ (i : instancesV2) (node : Node) (w w1 : World) (vm : VirtualMachine),
        vm.Status = status → node.Status.Addresses = prevAddrs →
        GetByProviderID node.Spec.ProviderID i.namespace_ w = ((some vm, none), w1) →
        (getRegionAndZone i vm.Status.NodeName w1).1.2.2 = none →
        ∃ md w2, i.InstanceMetadata node w = ((some md, none), w2) ∧
          md.NodeAddresses = [⟨NodeInternalIP, status.IPAddress⟩]) := by
  have e := getNodeAddresses_nonempty status prevAddrs h
  refine ⟨e, ?_, ?_⟩
  · intro i node w w1 w2 vm md hs hp hget hmd
    rw [InstanceMetadata_addresses i node w w1 w2 vm md hget hmd, hs, hp, e]
  · intro i node w w1 vm hs hp hget hreg
    refine ⟨_, _, InstanceMetadata_ok i node w w1 vm hget hreg, ?_⟩
    simp only
    rw [hs, hp, e]

/-- Witness for C6: a live address wins over two prior internal-type
addresses. -/
theorem getNodeAddresses_live_witness :
    (⟨"Running", "10.1.1.7", "node-1"⟩ : VirtualMachineStatus).IPAddress ≠ "" ∧
      getNodeAddresses ⟨"Running", "10.1.1.7", "node-1"⟩
          [⟨"InternalIP", "10.0.0.1"⟩, ⟨"InternalIP", "10.0.0.2"⟩] =
        [⟨"InternalIP", "10.1.1.7"⟩] :=
  ⟨by decide, (getNodeAddresses_live ⟨"Running", "10.1.1.7", "node-1"⟩
    [⟨"InternalIP", "10.0.0.1"⟩, ⟨"InternalIP", "10.0.0.2"⟩] (by decide)).1⟩

/-! ### Instance lookup -/

theorem errorsIs_InstanceNotFound (err : Error) :
    errorsIs err Error.InstanceNotFound = true ↔ err = Error.InstanceNotFound := by
  simp [errorsIs]

theorem IsNotFound_client_iff (e : StatusError) :
    IsNotFound (Error.client e) = true ↔
      e.reason = "NotFound" ∨ (e.reason ∉ knownReasons ∧ e.code = 404) := by
  unfold IsNotFound
  by_cases h1 : e.reason = "NotFound"
  · simp [h1]
  · by_cases h2 : e.reason ∈ knownReasons
    · simp [h1, h2]
    · by_cases h3 : e.code = 404
      · simp [h1, h2, h3]
      · simp [h1, h2, h3]

/-- C7. `InstanceExists` returns `(false, nil)` exactly when the instance
lookup reports `InstanceNotFound`, which is when the provider ID decodes and the
store answers the get with a not-found error; it returns `(true, nil)` when the
lookup succeeds; a provider ID that fails to decode and a store error other
than not-found are returned unchanged as the error. A store error is a
not-found one, as `k8serrors.IsNotFound` has it, when its reason is `NotFound`
or its reason is not a known one and its code is 404. -/
theorem InstanceExists_spec (i : instancesV2) (node : Node) (w : World) :
    ((InstanceExists i node w).1 = (false, none) ↔
        (GetByProviderID node.Spec.ProviderID i.namespace_ w).1.2 =
          some Error.InstanceNotFound) ∧
      ((GetByProviderID node.Spec.ProviderID i.namespace_ w).1.2 = none →
        (InstanceExists i node w).1 = (true, none)) ∧
      (∀ err, (GetByProviderID node.Spec.ProviderID i.namespace_ w).1.2 = some err →
        err ≠ Error.InstanceNotFound → (InstanceExists i node w).1 = (false, some err)) ∧
      (∀ err, (ParseProviderID node.Spec.ProviderID).2 = some err →
        InstanceExists i node w = ((false, some err), w)) ∧
      (∀ name err w1, ParseProviderID node.Spec.ProviderID = (name, none) →
        w.GetVirtualMachine ⟨i.namespace_, name⟩ = (.error err, w1) →
        InstanceExists i node w =
          if IsNotFound err then ((false, none), w1) else ((false, some err), w1)) ∧
      (∀ name vm w1, ParseProviderID node.Spec.ProviderID = (name, none) →
        w.GetVirtualMachine ⟨i.namespace_, name⟩ = (.ok vm, w1) →
        InstanceExists i node w = ((true, none), w1)) ∧
      (∀ name e w1, ParseProviderID node.Spec.ProviderID = (name, none) →
        w.GetVirtualMachine ⟨i.namespace_, name⟩ = (.error (.client e), w1) →
        InstanceExists i node w =
          if e.reason = "NotFound" ∨ (e.reason ∉ knownReasons ∧ e.code = 404) then
            ((false, none), w1)
          else ((false, some (Error.client e)), w1)) := by
  refine ⟨?_, ?_, ?_, ?_, ?_, ?_, ?_⟩
  · unfold InstanceExists
    rcases hg : GetByProviderID node.Spec.ProviderID i.namespace_ w with ⟨⟨v, e⟩, w1⟩
    cases e with
    | none => simp
    | some err =>
      by_cases he : err = Error.InstanceNotFound
      · simp [he, errorsIs]
      · have : errorsIs err Error.InstanceNotFound = false := by
          simpa [errorsIs] using he
        simp [this, he]
  · unfold InstanceExists
    rcases hg : GetByProviderID node.Spec.ProviderID i.namespace_ w with ⟨⟨v, e⟩, w1⟩
    intro h
    simp only at h
    subst h
    rfl
  · unfold InstanceExists
    rcases hg : GetByProviderID node.Spec.ProviderID i.namespace_ w with ⟨⟨v, e⟩, w1⟩
    intro err h hne
    simp only at h
    subst h
    have : errorsIs err Error.InstanceNotFound = false := by
      simpa [errorsIs] using hne
    simp [this]
  · intro err h
    rcases hp : ParseProviderID node.Spec.ProviderID with ⟨name, e⟩
    rw [hp] at h
    simp only at h
    subst h
    have hw : WellFormedProviderID node.Spec.ProviderID → False := by
      rintro ⟨tok, h0, hall, hs⟩
      have hm := ParseProviderID_match tok h0 hall
      rw [← hs, hp] at hm
      simp at hm
    have hp2 := ParseProviderID_noMatch node.Spec.ProviderID hw
    rw [hp] at hp2
    simp only [Prod.mk.injEq, Option.some.injEq] at hp2
    simp [InstanceExists, GetByProviderID, hp, hp2.2, errorsIs]
  · intro name err w1 hp hg
    cases err with
    | client e =>
      by_cases hnf : IsNotFound (Error.client e) = true
      · simp [InstanceExists, GetByProviderID, hp, GetByName, hg, hnf, errorsIs]
      · simp [InstanceExists, GetByProviderID, hp, GetByName, hg, hnf, errorsIs]
    | InstanceNotFound =>
      exfalso
      unfold World.GetVirtualMachine at hg
      split at hg
      · simp at hg
      · split at hg
        · simp at hg
        · simp [notFound] at hg
    | invalidProviderID p =>
      exfalso
      unfold World.GetVirtualMachine at hg
      split at hg
      · simp at hg
      · split at hg
        · simp at hg
        · simp [notFound] at hg
    | deadlineExceeded =>
      exfalso
      unfold World.GetVirtualMachine at hg
      split at hg
      · simp at hg
      · split at hg
        · simp at hg
        · simp [notFound] at hg
  · intro name vm w1 hp hg
    simp [InstanceExists, GetByProviderID, hp, GetByName, hg]
  · intro name e w1 hp hg
    by_cases hnf : IsNotFound (Error.client e) = true
    · rw [if_pos ((IsNotFound_client_iff e).mp hnf)]
      simp [InstanceExists, GetByProviderID, hp, GetByName, hg, hnf, errorsIs]
    · rw [if_neg (fun hc => hnf ((IsNotFound_client_iff e).mpr hc))]
      simp [InstanceExists, GetByProviderID, hp, GetByName, hg, hnf, errorsIs]

/-- An error with the unknown reason and code 404 counts as not-found: the
store fails the get with such an error and `InstanceExists` answers
`(false, nil)`; with code 500 the error is returned. -/
theorem InstanceExists_unknown_reason_example :
    (InstanceExists ⟨"infra", true⟩
        { Name := "node-1", Labels := ∅, Spec := ⟨"dvp://vm-1"⟩, Status := ⟨[]⟩ }
        { services := [], instances := [], nodes := [],
          faults := [some ⟨"", 404, "no such virtual machine"⟩], platform := [],
          log := [] }).1 = (false, none) ∧
      (InstanceExists ⟨"infra", true⟩
        { Name := "node-1", Labels := ∅, Spec := ⟨"dvp://vm-1"⟩, Status := ⟨[]⟩ }
        { services := [], instances := [], nodes := [],
          faults := [some ⟨"", 500, "store unreachable"⟩], platform := [],
          log := [] }).1 = (false, some (Error.client ⟨"", 500, "store unreachable"⟩)) := by
  decide

/-! ### Backing store lemmas -/

theorem call_eq (w : World) (c : Call) : w.call c = (w.faults.head?.join, w.after c) := rfl

theorem GetService_snd (w : World) (key : NamespacedName) :
    (w.GetService key).2 = w.after (.getService key) := by
  unfold World.GetService
  rw [call_eq]
  cases w.faults.head?.join with
  | some e => rfl
  | none =>
    simp only
    cases (w.after (.getService key)).services.find? (fun s => s.key == key) <;> rfl

theorem GetService_ok (w w1 : World) (key : NamespacedName) (s : Service)
    (h : w.GetService key = (.ok s, w1)) :
    w1 = w.after (.getService key) ∧ w.services.find? (fun x => x.key == key) = some s := by
  have h2 := GetService_snd w key
  rw [h] at h2
  refine ⟨h2, ?_⟩
  unfold World.GetService at h
  rw [call_eq] at h
  cases hf : w.faults.head?.join with
  | some e => rw [hf] at h; simp at h
  | none =>
    rw [hf] at h
    simp only at h
    have hs : (w.after (.getService key)).services = w.services := rfl
    rw [hs] at h
    cases hfind : w.services.find? (fun x => x.key == key) with
    | none => rw [hfind] at h; simp at h
    | some s1 =>
      rw [hfind] at h
      simp only [Prod.mk.injEq, Except.ok.injEq] at h
      rw [h.1]

theorem GetService_of_find (w : World) (key : NamespacedName) (s : Service)
    (hf : w.faults.head?.join = none)
    (h : w.services.find? (fun x => x.key == key) = some s) :
    w.GetService key = (.ok s, w.after (.getService key)) := by
  unfold World.GetService
  rw [call_eq, hf]
  simp only
  have hs : (w.after (.getService key)).services = w.services := rfl
  rw [hs, h]

theorem GetService_absent (w : World) (key : NamespacedName)
    (hf : w.faults.head?.join = none)
    (h : w.services.find? (fun x => x.key == key) = none) :
    w.GetService key = (.error (notFound key), w.after (.getService key)) := by
  unfold World.GetService
  rw [call_eq, hf]
  simp only
  have hs : (w.after (.getService key)).services = w.services := rfl
  rw [hs, h]

theorem getLoadBalancerByName_ok (lb : loadBalancer) (name : String) (w w1 : World) (s : Service)
    (h : w.GetService ⟨lb.namespace_, name⟩ = (.ok s, w1)) :
    getLoadBalancerByName lb name w = ((some s, none), w1) := by
  simp [getLoadBalancerByName, h]

theorem getLoadBalancerByName_notFound (lb : loadBalancer) (name : String) (w w1 : World)
    (err : Error) (h : w.GetService ⟨lb.namespace_, name⟩ = (.error err, w1))
    (hnf : IsNotFound err = true) :
    getLoadBalancerByName lb name w = ((none, none), w1) := by
  simp [getLoadBalancerByName, h, hnf]

theorem getLoadBalancerByName_snd (lb : loadBalancer) (name : String) (w : World) :
    (getLoadBalancerByName lb name w).2 = w.after (.getService ⟨lb.namespace_, name⟩) := by
  have h2 := GetService_snd w ⟨lb.namespace_, name⟩
  unfold getLoadBalancerByName
  rcases hg : w.GetService ⟨lb.namespace_, name⟩ with ⟨r, w1⟩
  rw [hg] at h2
  cases r with
  | error err =>
    simp only
    split <;> exact h2
  | ok s => exact h2

theorem getLoadBalancerByName_some (lb : loadBalancer) (name : String) (w w1 : World)
    (s : Service) (e : Option Error)
    (h : getLoadBalancerByName lb name w = ((some s, e), w1)) :
    w.GetService ⟨lb.namespace_, name⟩ = (.ok s, w1) ∧ e = none := by
  unfold getLoadBalancerByName at h
  rcases hg : w.GetService ⟨lb.namespace_, name⟩ with ⟨r, w2⟩
  rw [hg] at h
  cases r with
  | error err =>
    simp only at h
    split at h <;> simp at h
  | ok s2 =>
    simp only [Prod.mk.injEq, Option.some.injEq] at h
    obtain ⟨⟨rfl, rfl⟩, rfl⟩ := h
    exact ⟨rfl, rfl⟩

/-! ### Port lists -/

theorem SemanticDeepEqual_iff (a b : List ServicePort) : SemanticDeepEqual a b = true ↔ a = b := by
  simp [SemanticDeepEqual]

theorem updateLoadBalancerPorts_equal (service : Service) (ports : List ServicePort) (w : World)
    (h : service.Spec.Ports = ports) :
    updateLoadBalancerPorts service ports w = ((service, none), w) := by
  have : SemanticDeepEqual ports service.Spec.Ports = true := (SemanticDeepEqual_iff _ _).mpr h.symm
  simp [updateLoadBalancerPorts, this]

theorem updateLoadBalancerPorts_differ (service : Service) (ports : List ServicePort) (w : World)
    (h : service.Spec.Ports ≠ ports) :
    updateLoadBalancerPorts service ports w =
      (({ service with Spec := { service.Spec with Ports := ports } },
        (w.Update { service with Spec := { service.Spec with Ports := ports } }).1),
       (w.Update { service with Spec := { service.Spec with Ports := ports } }).2) := by
  have : SemanticDeepEqual ports service.Spec.Ports = false := by
    cases hq : SemanticDeepEqual ports service.Spec.Ports with
    | false => rfl
    | true => exact absurd ((SemanticDeepEqual_iff _ _).mp hq).symm h
  simp only [updateLoadBalancerPorts, this, Bool.not_false, if_true]
  rcases hu : w.Update { service with Spec := { service.Spec with Ports := ports } } with ⟨e, w1⟩
  cases e <;> rfl

theorem Update_log (w : World) (obj : Service) :
    (w.Update obj).2.log = w.log ++ [Call.update obj] := by
  unfold World.Update
  rw [call_eq]
  cases w.faults.head?.join with
  | some e => rfl
  | none =>
    simp only
    split <;> rfl

theorem Create_log (w : World) (obj : Service) :
    (w.Create obj).2.log = w.log ++ [Call.create obj] := by
  unfold World.Create
  rw [call_eq]
  cases w.faults.head?.join with
  | some e => rfl
  | none =>
    simp only
    split <;> rfl

theorem Delete_log (w : World) (obj : Service) :
    (w.Delete obj).2.log = w.log ++ [Call.delete obj] := by
  unfold World.Delete
  rw [call_eq]
  cases w.faults.head?.join with
  | some e => rfl
  | none =>
    simp only
    split <;> rfl

theorem ports_eq_of_listener (a b : List ServicePort)
    (h4 : a.map ServicePort.listener = b.map ServicePort.listener)
    (ha : ∀ p ∈ a, p.AppProtocol = none ∧ p.NodePort = 0)
    (hb : ∀ p ∈ b, p.AppProtocol = none ∧ p.NodePort = 0) : a = b := by
  induction a generalizing b with
  | nil =>
    cases b with
    | nil => rfl
    | cons y ys => simp at h4
  | cons x xs ih =>
    cases b with
    | nil => simp at h4
    | cons y ys =>
      simp only [List.map_cons, List.cons.injEq] at h4
      have hx := ha x (List.mem_cons_self _ _)
      have hy := hb y (List.mem_cons_self _ _)
      have hxy : x = y := by
        cases x; cases y
        simp only [ServicePort.listener, Prod.mk.injEq] at h4
        simp only at hx hy
        simp only [ServicePort.mk.injEq]
        exact ⟨h4.1.1, h4.1.2.1, hx.1.trans hy.1.symm, h4.1.2.2.1, h4.1.2.2.2,
          hx.2.trans hy.2.symm⟩
      rw [hxy, ih ys h4.2 (fun p hp => ha p (List.mem_cons_of_mem _ hp))
        (fun p hp => hb p (List.mem_cons_of_mem _ hp))]

theorem createLoadBalancerPorts_unset (service : Service) :
    ∀ p ∈ createLoadBalancerPorts service, p.AppProtocol = none ∧ p.NodePort = 0 := by
  intro p hp
  simp only [createLoadBalancerPorts, List.mem_map] at hp
  obtain ⟨q, _, rfl⟩ := hp
  exact ⟨rfl, rfl⟩

/-! ### Reconciling an existing object -/

theorem EnsureLoadBalancer_existing (lb : loadBalancer) (clusterName : String) (service : Service)
    (nodes : List Node) (w w1 : World) (svc : Service)
    (hget : w.GetService ⟨lb.namespace_, GetLoadBalancerName lb clusterName service⟩ =
      (.ok svc, w1)) :
    EnsureLoadBalancer lb clusterName service nodes w =
      ((some (updateLoadBalancerPorts svc (createLoadBalancerPorts service) w1).1.1.Status.LoadBalancer,
        (updateLoadBalancerPorts svc (createLoadBalancerPorts service) w1).1.2),
       (updateLoadBalancerPorts svc (createLoadBalancerPorts service) w1).2) := by
  unfold EnsureLoadBalancer
  simp only [getLoadBalancerByName_ok lb _ w w1 svc hget]

theorem UpdateLoadBalancer_existing (lb : loadBalancer) (clusterName : String) (service : Service)
    (nodes : List Node) (w w1 : World) (svc : Service)
    (hget : w.GetService ⟨lb.namespace_, GetLoadBalancerName lb clusterName service⟩ =
      (.ok svc, w1)) :
    UpdateLoadBalancer lb clusterName service nodes w =
      ((updateLoadBalancerPorts svc (createLoadBalancerPorts service) w1).1.2,
       (updateLoadBalancerPorts svc (createLoadBalancerPorts service) w1).2) := by
  unfold UpdateLoadBalancer
  simp only [hget]

theorem reconcile_equal (lb : loadBalancer) (clusterName : String) (service : Service)
    (nodes : List Node) (w w1 : World) (svc : Service)
    (hget : w.GetService ⟨lb.namespace_, GetLoadBalancerName lb clusterName service⟩ =
      (.ok svc, w1))
    (heq : svc.Spec.Ports = createLoadBalancerPorts service) :
    EnsureLoadBalancer lb clusterName service nodes w =
        ((some svc.Status.LoadBalancer, none), w1) ∧
      UpdateLoadBalancer lb clusterName service nodes w = (none, w1) ∧
      w1.log = w.log ++
        [Call.getService ⟨lb.namespace_, GetLoadBalancerName lb clusterName service⟩] ∧
      w1.services = w.services ∧ w1.instances = w.instances ∧ w1.nodes = w.nodes := by
  have hw := (GetService_ok w w1 _ svc hget).1
  refine ⟨?_, ?_, ?_, ?_, ?_, ?_⟩
  · rw [EnsureLoadBalancer_existing lb clusterName service nodes w w1 svc hget,
      updateLoadBalancerPorts_equal svc _ w1 heq]
  · rw [UpdateLoadBalancer_existing lb clusterName service nodes w w1 svc hget,
      updateLoadBalancerPorts_equal svc _ w1 heq]
  · rw [hw]; rfl
  · rw [hw]; rfl
  · rw [hw]; rfl
  · rw [hw]; rfl

/-! ### Port-diff rules -/

/-- C3, as stated, fails: the stored backing service of `web` agrees with the
desired list on name, protocol, port and target port, in the same order and
with the same length, but carries an allocated node port; `EnsureLoadBalancer`
and `UpdateLoadBalancer` both issue an update call. -/
theorem portDiff_noop_counterexample :
    (exampleWorld
        [exampleBacking [⟨"http", "TCP", none, 80, ⟨intstr.Int, 30080, ""⟩, 31080⟩]
          [⟨"10.0.0.9", ""⟩]] []).services.find?
        (fun s => s.key ==
          ⟨exampleLB.namespace_, GetLoadBalancerName exampleLB "demo" (exampleExposed [httpPort])⟩) =
        some (exampleBacking [⟨"http", "TCP", none, 80, ⟨intstr.Int, 30080, ""⟩, 31080⟩]
          [⟨"10.0.0.9", ""⟩]) ∧
      [(⟨"http", "TCP", none, 80, ⟨intstr.Int, 30080, ""⟩, 31080⟩ : ServicePort)].map
          ServicePort.listener =
        (createLoadBalancerPorts (exampleExposed [httpPort])).map ServicePort.listener ∧
      updatedObjects
          (EnsureLoadBalancer exampleLB "demo" (exampleExposed [httpPort]) []
            (exampleWorld
              [exampleBacking [⟨"http", "TCP", none, 80, ⟨intstr.Int, 30080, ""⟩, 31080⟩]
                [⟨"10.0.0.9", ""⟩]] [])).2.log =
        [exampleBacking [⟨"http", "TCP", none, 80, ⟨intstr.Int, 30080, ""⟩, 0⟩]
          [⟨"10.0.0.9", ""⟩]] ∧
      updatedObjects
          (UpdateLoadBalancer exampleLB "demo" (exampleExposed [httpPort]) []
            (exampleWorld
              [exampleBacking [⟨"http", "TCP", none, 80, ⟨intstr.Int, 30080, ""⟩, 31080⟩]
                [⟨"10.0.0.9", ""⟩]] [])).2.log =
        [exampleBacking [⟨"http", "TCP", none, 80, ⟨intstr.Int, 30080, ""⟩, 0⟩]
          [⟨"10.0.0.9", ""⟩]] :=
  ⟨rfl, by decide, rfl, rfl⟩

/-- C3, amended. Port-diff no-op rule: if the lookup returns an existing
backing service whose port entries agree with the desired list on name,
protocol, port and target port, in the same order and with the same length, and
whose other fields are unset (no app protocol, node port zero), so that the two
lists are structurally equal, then `EnsureLoadBalancer` and `UpdateLoadBalancer`
issue no request but the lookup: no update, no create, the store unchanged, and
`EnsureLoadBalancer` returns the stored status. -/
theorem portDiff_noop (lb : loadBalancer) (clusterName : String) (service : Service)
    (nodes : List Node) (w w1 : World) (svc : Service)
    (hget : w.GetService ⟨lb.namespace_, GetLoadBalancerName lb clusterName service⟩ =
      (.ok svc, w1))
    (h4 : svc.Spec.Ports.map ServicePort.listener =
      (createLoadBalancerPorts service).map ServicePort.listener)
    (hrest : ∀ p ∈ svc.Spec.Ports, p.AppProtocol = none ∧ p.NodePort = 0) :
    EnsureLoadBalancer lb clusterName service nodes w =
        ((some svc.Status.LoadBalancer, none), w1) ∧
      UpdateLoadBalancer lb clusterName service nodes w = (none, w1) ∧
      w1.log = w.log ++
        [Call.getService ⟨lb.namespace_, GetLoadBalancerName lb clusterName service⟩] ∧
      w1.services = w.services := by
  have heq : svc.Spec.Ports = createLoadBalancerPorts service :=
    ports_eq_of_listener _ _ h4 hrest (createLoadBalancerPorts_unset service)
  have h := reconcile_equal lb clusterName service nodes w w1 svc hget heq
  exact ⟨h.1, h.2.1, h.2.2.1, h.2.2.2.1⟩

/-- Witness for C3 (amended): the stored entry `http 80/TCP -> 30080` with no
node port is left alone. -/
theorem portDiff_noop_witness :
    (EnsureLoadBalancer exampleLB "demo" (exampleExposed [httpPort]) []
        (exampleWorld
          [exampleBacking [⟨"http", "TCP", none, 80, ⟨intstr.Int, 30080, ""⟩, 0⟩]
            [⟨"10.0.0.9", ""⟩]] [])).2.log =
      [Call.getService ⟨"infra", "a1234abcd"⟩] :=
  ((portDiff_noop exampleLB "demo" (exampleExposed [httpPort]) []
    (exampleWorld
      [exampleBacking [⟨"http", "TCP", none, 80, ⟨intstr.Int, 30080, ""⟩, 0⟩]
        [⟨"10.0.0.9", ""⟩]] [])
    ((exampleWorld
      [exampleBacking [⟨"http", "TCP", none, 80, ⟨intstr.Int, 30080, ""⟩, 0⟩]
        [⟨"10.0.0.9", ""⟩]] []).after (.getService ⟨"infra", "a1234abcd"⟩))
    (exampleBacking [⟨"http", "TCP", none, 80, ⟨intstr.Int, 30080, ""⟩, 0⟩] [⟨"10.0.0.9", ""⟩])
    rfl (by decide) (by decide)).1 ▸ rfl)

/-- C4. Port-drift update rule: if the lookup returns an existing backing
service whose port list differs from the desired list, `EnsureLoadBalancer` and
`UpdateLoadBalancer` issue, after the lookup, exactly one update call and no
create call; the updated object is the existing one with its port list replaced
by the full desired list, which has one entry per exposed port, in the exposed
order, carrying that port's name, protocol and port, with the target port set
to the integer node port. -/
theorem portDrift_update (lb : loadBalancer) (clusterName : String) (service : Service)
    (nodes : List Node) (w w1 : World) (svc : Service)
    (hget : w.GetService ⟨lb.namespace_, GetLoadBalancerName lb clusterName service⟩ =
      (.ok svc, w1))
    (hne : svc.Spec.Ports ≠ createLoadBalancerPorts service) :
    (EnsureLoadBalancer lb clusterName service nodes w).2.log =
        w.log ++
          [Call.getService ⟨lb.namespace_, GetLoadBalancerName lb clusterName service⟩,
           Call.update { svc with Spec := { svc.Spec with
             Ports := createLoadBalancerPorts service } }] ∧
      (UpdateLoadBalancer lb clusterName service nodes w).2.log =
        w.log ++
          [Call.getService ⟨lb.namespace_, GetLoadBalancerName lb clusterName service⟩,
           Call.update { svc with Spec := { svc.Spec with
             Ports := createLoadBalancerPorts service } }] ∧
      (createLoadBalancerPorts service).length = service.Spec.Ports.length ∧
      (∀ (n : Nat) (h : n < service.Spec.Ports.length),
        (createLoadBalancerPorts service)[n]? =
          some { Name := (service.Spec.Ports.get ⟨n, h⟩).Name,
                 Protocol := (service.Spec.Ports.get ⟨n, h⟩).Protocol,
                 AppProtocol := none,
                 Port := (service.Spec.Ports.get ⟨n, h⟩).Port,
                 TargetPort := ⟨intstr.Int, (service.Spec.Ports.get ⟨n, h⟩).NodePort, ""⟩,
                 NodePort := 0 }) := by
  have hw := (GetService_ok w w1 _ svc hget).1
  have hl : w1.log = w.log ++
      [Call.getService ⟨lb.namespace_, GetLoadBalancerName lb clusterName service⟩] := by
    rw [hw]; rfl
  refine ⟨?_, ?_, ?_, ?_⟩
  · rw [EnsureLoadBalancer_existing lb clusterName service nodes w w1 svc hget,
      updateLoadBalancerPorts_differ svc _ w1 hne]
    simp only [Update_log, hl, List.append_assoc, List.singleton_append]
  · rw [UpdateLoadBalancer_existing lb clusterName service nodes w w1 svc hget,
      updateLoadBalancerPorts_differ svc _ w1 hne]
    simp only [Update_log, hl, List.append_assoc, List.singleton_append]
  · simp [createLoadBalancerPorts]
  · intro n h
    simp [createLoadBalancerPorts, List.getElem?_map, List.getElem?_eq_getElem h]

/-- Witness for C4: exposed ports `http 80/TCP` (node port 30080) and
`https 443/TCP` (node port 30443) over a stored `[http 80/TCP -> 30080]`: one
lookup, then one update carrying both entries. -/
theorem portDrift_update_witness :
    (EnsureLoadBalancer exampleLB "demo" (exampleExposed [httpPort, httpsPort]) []
        (exampleWorld
          [exampleBacking [⟨"http", "TCP", none, 80, ⟨intstr.Int, 30080, ""⟩, 0⟩]
            [⟨"10.0.0.9", ""⟩]] [])).2.log =
      [Call.getService ⟨"infra", "a1234abcd"⟩,
       Call.update (exampleBacking
         [⟨"http", "TCP", none, 80, ⟨intstr.Int, 30080, ""⟩, 0⟩,
          ⟨"https", "TCP", none, 443, ⟨intstr.Int, 30443, ""⟩, 0⟩] [⟨"10.0.0.9", ""⟩])] :=
  (portDrift_update exampleLB "demo" (exampleExposed [httpPort, httpsPort]) []
    (exampleWorld
      [exampleBacking [⟨"http", "TCP", none, 80, ⟨intstr.Int, 30080, ""⟩, 0⟩]
        [⟨"10.0.0.9", ""⟩]] [])
    ((exampleWorld
      [exampleBacking [⟨"http", "TCP", none, 80, ⟨intstr.Int, 30080, ""⟩, 0⟩]
        [⟨"10.0.0.9", ""⟩]] []).after (.getService ⟨"infra", "a1234abcd"⟩))
    (exampleBacking [⟨"http", "TCP", none, 80, ⟨intstr.Int, 30080, ""⟩, 0⟩] [⟨"10.0.0.9", ""⟩])
    rfl (by decide)).1.trans rfl

/-! ### Deletion -/

/-- C10. `EnsureLoadBalancerDeleted`: when the lookup reports not-found (in
particular when no object with the computed name is stored and the request is
not failed by injection) it returns success, issues no request but the lookup
(no delete) and leaves the store unchanged; when the lookup returns the object
it issues exactly one delete, for that object, and returns the result of that
delete. -/
theorem EnsureLoadBalancerDeleted_spec (lb : loadBalancer) (clusterName : String)
    (service : Service) (w : World) :
    (∀ err w1,
        w.GetService ⟨lb.namespace_, GetLoadBalancerName lb clusterName service⟩ =
          (.error err, w1) →
        IsNotFound err = true →
        EnsureLoadBalancerDeleted lb clusterName service w = (none, w1) ∧
          w1.services = w.services ∧
          w1.log = w.log ++
            [Call.getService ⟨lb.namespace_, GetLoadBalancerName lb clusterName service⟩] ∧
          deletedObjects w1.log = deletedObjects w.log) ∧
      (w.faults.head?.join = none →
        w.services.find? (fun s => s.key ==
          ⟨lb.namespace_, GetLoadBalancerName lb clusterName service⟩) = none →
        (EnsureLoadBalancerDeleted lb clusterName service w).1 = none ∧
          (EnsureLoadBalancerDeleted lb clusterName service w).2.services = w.services ∧
          (EnsureLoadBalancerDeleted lb clusterName service w).2.log = w.log ++
            [Call.getService ⟨lb.namespace_, GetLoadBalancerName lb clusterName service⟩]) ∧
      (∀ svc w1,
        w.GetService ⟨lb.namespace_, GetLoadBalancerName lb clusterName service⟩ =
          (.ok svc, w1) →
        EnsureLoadBalancerDeleted lb clusterName service w = w1.Delete svc ∧
          (EnsureLoadBalancerDeleted lb clusterName service w).2.log = w.log ++
            [Call.getService ⟨lb.namespace_, GetLoadBalancerName lb clusterName service⟩,
             Call.delete svc]) := by
  have hnf : ∀ err w1,
      w.GetService ⟨lb.namespace_, GetLoadBalancerName lb clusterName service⟩ =
        (.error err, w1) →
      IsNotFound err = true →
      EnsureLoadBalancerDeleted lb clusterName service w = (none, w1) ∧
        w1.services = w.services ∧
        w1.log = w.log ++
          [Call.getService ⟨lb.namespace_, GetLoadBalancerName lb clusterName service⟩] ∧
        deletedObjects w1.log = deletedObjects w.log := by
    intro err w1 hget hn
    have hw : w1 = w.after (.getService
        ⟨lb.namespace_, GetLoadBalancerName lb clusterName service⟩) := by
      have := GetService_snd w ⟨lb.namespace_, GetLoadBalancerName lb clusterName service⟩
      rw [hget] at this
      exact this
    refine ⟨?_, ?_, ?_, ?_⟩
    · unfold EnsureLoadBalancerDeleted
      simp only [getLoadBalancerByName_notFound lb _ w w1 err hget hn]
    · rw [hw]; rfl
    · rw [hw]; rfl
    · rw [hw]
      simp [World.after, deletedObjects, List.filterMap_append]
  refine ⟨hnf, ?_, ?_⟩
  · intro hf habs
    have hget := GetService_absent w _ hf habs
    have h := hnf _ _ hget (by simp [notFound, IsNotFound])
    rw [h.1]
    exact ⟨rfl, h.2.1, h.2.2.1⟩
  · intro svc w1 hget
    have hw := (GetService_ok w w1 _ svc hget).1
    have hd : EnsureLoadBalancerDeleted lb clusterName service w = w1.Delete svc := by
      unfold EnsureLoadBalancerDeleted
      simp only [getLoadBalancerByName_ok lb _ w w1 svc hget]
      rcases hdel : w1.Delete svc with ⟨e, w2⟩
      cases e <;> rfl
    refine ⟨hd, ?_⟩
    rw [hd, Delete_log, hw]
    simp [World.after]

/-! ### Creating the backing object -/

theorem foldl_insert_lookup (l : List (Sigma fun _ : String => String)) (hnd : l.NodupKeys)
    (m : StringMap) (k : String) :
    (l.foldl (fun m e => m.insert e.1 e.2) m).lookup k =
      match l.dlookup k with
      | some v => some v
      | none => m.lookup k := by
  induction l generalizing m with
  | nil => simp
  | cons e l ih =>
    obtain ⟨ek, ev⟩ := e
    rw [List.foldl_cons, ih (List.nodupKeys_cons.mp hnd).2]
    by_cases hk : k = ek
    · subst hk
      have hnot : k ∉ l.keys := (List.nodupKeys_cons.mp hnd).1
      have h1 : l.dlookup k = none := List.dlookup_eq_none.mpr hnot
      rw [h1, List.dlookup_cons_eq]
      simp [AList.lookup_insert]
    · rw [List.dlookup_cons_ne l ⟨ek, ev⟩ hk]
      cases l.dlookup k with
      | some v => rfl
      | none => simp [AList.lookup_insert_ne hk]

theorem createLoadBalancer_obj (lb : loadBalancer) (name : String) (service : Service)
    (vmLabels serviceLabels : StringMap) (ports : List ServicePort) (w : World) :
    (createLoadBalancer lb name service vmLabels serviceLabels ports w).1.1.Labels =
        serviceLabels ∧
      (createLoadBalancer lb name service vmLabels serviceLabels ports w).1.1.key =
        ⟨lb.namespace_, name⟩ ∧
      (createLoadBalancer lb name service vmLabels serviceLabels ports w).1.1.Spec.Ports =
        ports ∧
      (createLoadBalancer lb name service vmLabels serviceLabels ports w).1.1.Status.LoadBalancer.Ingress =
        [] := by
  unfold createLoadBalancer
  simp only [Service.key]
  cases service.Spec.LoadBalancerClass <;>
    (simp only []; split_ifs <;> exact ⟨rfl, rfl, rfl, rfl⟩)

theorem createLoadBalancer_create (lb : loadBalancer) (name : String) (service : Service)
    (vmLabels serviceLabels : StringMap) (ports : List ServicePort) (w : World) :
    (createLoadBalancer lb name service vmLabels serviceLabels ports w).1.2 =
        (w.Create (createLoadBalancer lb name service vmLabels serviceLabels ports w).1.1).1 ∧
      (createLoadBalancer lb name service vmLabels serviceLabels ports w).2 =
        (w.Create (createLoadBalancer lb name service vmLabels serviceLabels ports w).1.1).2 := by
  unfold createLoadBalancer
  exact ⟨rfl, rfl⟩

theorem tick_log (w : World) : w.tick.log = w.log := by
  unfold World.tick
  cases w.platform <;> rfl

theorem ingressCondition_log (lb : loadBalancer) (name : String) (svc : Service) (w : World) :
    ∃ rest, (ingressCondition lb name svc w).2.log = w.log ++ rest := by
  unfold ingressCondition
  split
  · exact ⟨[], by simp⟩
  · have h2 := getLoadBalancerByName_snd lb name w
    rcases hg : getLoadBalancerByName lb name w with ⟨⟨s, e⟩, w1⟩
    rw [hg] at h2
    simp only at h2
    have hl : w1.log = w.log ++ [Call.getService ⟨lb.namespace_, name⟩] := by
      rw [h2]; rfl
    refine ⟨[Call.getService ⟨lb.namespace_, name⟩], ?_⟩
    cases e with
    | some err => simpa using hl
    | none =>
      cases s with
      | none => simpa using hl
      | some s1 =>
        simp only
        split <;> exact hl

theorem poll_log (lb : loadBalancer) (name : String) (n : Nat) :
    ∀ (svc : Service) (w : World),
      ∃ rest, (PollUntilContextTimeout (ingressCondition lb name) n svc w).2.log =
        w.log ++ rest := by
  induction n with
  | zero =>
    intro svc w
    exact ⟨[], by simp [PollUntilContextTimeout]⟩
  | succ n ih =>
    intro svc w
    obtain ⟨r1, hr1⟩ := ingressCondition_log lb name svc w
    unfold PollUntilContextTimeout
    rcases hc : ingressCondition lb name svc w with ⟨⟨s1, b, e⟩, w1⟩
    rw [hc] at hr1
    simp only at hr1
    cases e with
    | some err => exact ⟨r1, by simpa using hr1⟩
    | none =>
      cases b with
      | true => exact ⟨r1, by simpa using hr1⟩
      | false =>
        simp only
        obtain ⟨r2, hr2⟩ := ih s1 w1.tick
        refine ⟨r1 ++ r2, ?_⟩
        rw [hr2, tick_log, hr1, List.append_assoc]

theorem EnsureLoadBalancer_absent (lb : loadBalancer) (clusterName : String) (service : Service)
    (nodes : List Node) (w w1 : World)
    (hget : getLoadBalancerByName lb (GetLoadBalancerName lb clusterName service) w =
      ((none, none), w1)) :
    ∃ obj rest,
      (EnsureLoadBalancer lb clusterName service nodes w).2.log =
          w1.log ++ Call.create obj :: rest ∧
        obj.Labels =
          lb.infraLabels.entries.foldl (fun m e => m.insert e.1 e.2)
            ((((∅ : StringMap).insert "cluster.x-k8s.io/tenant-service-name" service.Name).insert
              "cluster.x-k8s.io/tenant-service-namespace" service.Namespace).insert
              "cluster.x-k8s.io/cluster-name" clusterName) := by
  unfold EnsureLoadBalancer
  simp only [hget]
  generalize hL : lb.infraLabels.entries.foldl (fun m e => m.insert e.1 e.2)
    ((((∅ : StringMap).insert "cluster.x-k8s.io/tenant-service-name" service.Name).insert
      "cluster.x-k8s.io/tenant-service-namespace" service.Namespace).insert
      "cluster.x-k8s.io/cluster-name" clusterName) = L
  generalize hV : (∅ : StringMap).insert "cluster.x-k8s.io/cluster-name" clusterName = V
  have hobj := createLoadBalancer_obj lb (GetLoadBalancerName lb clusterName service) service V L
    (createLoadBalancerPorts service) w1
  have hcr := createLoadBalancer_create lb (GetLoadBalancerName lb clusterName service) service V L
    (createLoadBalancerPorts service) w1
  rcases hc : createLoadBalancer lb (GetLoadBalancerName lb clusterName service) service V L
    (createLoadBalancerPorts service) w1 with ⟨⟨obj, e⟩, w2⟩
  rw [hc] at hobj hcr
  simp only at hobj hcr
  have hl : w2.log = w1.log ++ [Call.create obj] := by
    rw [hcr.2, Create_log]
  cases e with
  | some err =>
    refine ⟨obj, [], ?_, hobj.1⟩
    simpa using hl
  | none =>
    simp only
    obtain ⟨rest, hrest⟩ := poll_log lb (GetLoadBalancerName lb clusterName service)
      (pollAttempts lb.config) obj w2
    rcases hp : PollUntilContextTimeout
      (ingressCondition lb (GetLoadBalancerName lb clusterName service))
      (pollAttempts lb.config) obj w2 with ⟨⟨s, e2⟩, w3⟩
    rw [hp] at hrest
    simp only at hrest
    refine ⟨obj, rest, ?_, hobj.1⟩
    cases e2 with
    | some err2 =>
      simp only
      rw [hrest, hl, List.append_assoc, List.singleton_append]
    | none =>
      simp only
      rw [hrest, hl, List.append_assoc, List.singleton_append]

/-- C9, as stated, fails: with an infra label configured under the key of the
tenant service-name back-reference, the object created for `web` carries the
configured value `other` under that key, not the exposed service's name. -/
theorem created_labels_counterexample :
    (exampleWorld [] []).services.find?
        (fun s => s.key ==
          ⟨exampleClashingLB.namespace_,
            GetLoadBalancerName exampleClashingLB "demo" (exampleExposed [httpPort])⟩) = none ∧
      (exampleExposed [httpPort]).Name = "web" ∧
      (createdObjects
          (EnsureLoadBalancer exampleClashingLB "demo" (exampleExposed [httpPort]) []
            (exampleWorld [] [])).2.log).map
          (fun obj => obj.Labels.lookup "cluster.x-k8s.io/tenant-service-name") =
        [some "other"] :=
  ⟨rfl, rfl, by decide⟩

/-- C9, amended. Labels of a newly created backing service: when the lookup
reports not-found, `EnsureLoadBalancer` issues a create call, and the object it
passes carries every configured infra label with its configured value, and it
carries the tenant service-name, tenant service-namespace and cluster-name
labels with the exposed service's name, its namespace and the cluster name as
values for each of these keys that is not also the key of a configured infra
label (an infra label under the same key takes its place). -/
theorem created_labels (lb : loadBalancer) (clusterName : String) (service : Service)
    (nodes : List Node) (w w1 : World) (err : Error)
    (hget : w.GetService ⟨lb.namespace_, GetLoadBalancerName lb clusterName service⟩ =
      (.error err, w1))
    (hnf : IsNotFound err = true) :
    ∃ obj rest,
      (EnsureLoadBalancer lb clusterName service nodes w).2.log =
          w.log ++
            Call.getService ⟨lb.namespace_, GetLoadBalancerName lb clusterName service⟩ ::
              Call.create obj :: rest ∧
        (∀ k v, lb.infraLabels.lookup k = some v → obj.Labels.lookup k = some v) ∧
        (lb.infraLabels.lookup "cluster.x-k8s.io/tenant-service-name" = none →
          obj.Labels.lookup "cluster.x-k8s.io/tenant-service-name" = some service.Name) ∧
        (lb.infraLabels.lookup "cluster.x-k8s.io/tenant-service-namespace" = none →
          obj.Labels.lookup "cluster.x-k8s.io/tenant-service-namespace" =
            some service.Namespace) ∧
        (lb.infraLabels.lookup "cluster.x-k8s.io/cluster-name" = none →
          obj.Labels.lookup "cluster.x-k8s.io/cluster-name" = some clusterName) := by
  have hby := getLoadBalancerByName_notFound lb _ w w1 err hget hnf
  obtain ⟨obj, rest, hlog, hlab⟩ := EnsureLoadBalancer_absent lb clusterName service nodes w w1 hby
  have hw : w1 = w.after (.getService
      ⟨lb.namespace_, GetLoadBalancerName lb clusterName service⟩) := by
    have := GetService_snd w ⟨lb.namespace_, GetLoadBalancerName lb clusterName service⟩
    rw [hget] at this
    exact this
  have hl : w1.log = w.log ++
      [Call.getService ⟨lb.namespace_, GetLoadBalancerName lb clusterName service⟩] := by
    rw [hw]; rfl
  have hlook : ∀ k, obj.Labels.lookup k =
      match lb.infraLabels.lookup k with
      | some v => some v
      | none =>
        ((((∅ : StringMap).insert "cluster.x-k8s.io/tenant-service-name" service.Name).insert
          "cluster.x-k8s.io/tenant-service-namespace" service.Namespace).insert
          "cluster.x-k8s.io/cluster-name" clusterName).lookup k := by
    intro k
    rw [hlab, foldl_insert_lookup _ lb.infraLabels.nodupKeys]
    rfl
  refine ⟨obj, rest, ?_, ?_, ?_, ?_, ?_⟩
  · rw [hlog, hl, List.append_assoc, List.singleton_append]
  · intro k v hk
    rw [hlook k, hk]
  · intro hk
    rw [hlook _, hk]
    simp only
    rw [AList.lookup_insert_ne (by decide), AList.lookup_insert_ne (by decide),
      AList.lookup_insert]
  · intro hk
    rw [hlook _, hk]
    simp only
    rw [AList.lookup_insert_ne (by decide), AList.lookup_insert]
  · intro hk
    rw [hlook _, hk]
    simp only
    rw [AList.lookup_insert]

/-- Witness for C9 (amended): with the infra label `env=prod` configured and an
empty store, the created object carries `env=prod`, the service name `web`,
the service namespace `tenant-a` and the cluster name `demo`. -/
theorem created_labels_witness :
    ∃ obj rest,
      (EnsureLoadBalancer exampleLabelledLB "demo" (exampleExposed [httpPort]) []
          (exampleWorld [] [])).2.log =
          (exampleWorld [] []).log ++
            Call.getService ⟨"infra", "a1234abcd"⟩ :: Call.create obj :: rest ∧
        obj.Labels.lookup "env" = some "prod" ∧
        obj.Labels.lookup "cluster.x-k8s.io/tenant-service-name" = some "web" ∧
        obj.Labels.lookup "cluster.x-k8s.io/tenant-service-namespace" = some "tenant-a" ∧
        obj.Labels.lookup "cluster.x-k8s.io/cluster-name" = some "demo" := by
  obtain ⟨obj, rest, h1, h2, h3, h4, h5⟩ :=
    created_labels exampleLabelledLB "demo" (exampleExposed [httpPort]) []
      (exampleWorld [] [])
      ((exampleWorld [] []).after (.getService ⟨"infra", "a1234abcd"⟩))
      (notFound ⟨"infra", "a1234abcd"⟩) rfl rfl
  exact ⟨obj, rest, h1, h2 "env" "prod" (by decide), h3 (by decide), h4 (by decide),
    h5 (by decide)⟩

/-! ### Idempotence of `EnsureLoadBalancer` -/

theorem Update_none (w : World) (obj : Service) (h : (w.Update obj).1 = none) :
    (w.Update obj).2.services =
        w.services.map (fun s => if s.key == obj.key then obj else s) := by
  unfold World.Update at h ⊢
  rw [call_eq] at h ⊢
  cases hf : w.faults.head?.join with
  | some e => rw [hf] at h; simp at h
  | none =>
    rw [hf] at h
    simp only at h ⊢
    have hs : (w.after (.update obj)).services = w.services := rfl
    rw [hs] at h ⊢
    split
    · rfl
    · rename_i hany
      rw [if_neg hany] at h
      simp at h

theorem Create_none (w : World) (obj : Service) (h : (w.Create obj).1 = none) :
    (w.Create obj).2.services = w.services ++ [obj] ∧
      (w.Create obj).2.platform = w.platform ∧
      w.services.any (fun s => s.key == obj.key) = false := by
  unfold World.Create at h ⊢
  rw [call_eq] at h ⊢
  cases hf : w.faults.head?.join with
  | some e => rw [hf] at h; simp at h
  | none =>
    rw [hf] at h
    simp only at h ⊢
    have hs : (w.after (.create obj)).services = w.services := rfl
    rw [hs] at h ⊢
    by_cases hany : w.services.any (fun s => s.key == obj.key) = true
    · rw [if_pos hany] at h
      simp at h
    · rw [if_neg hany]
      refine ⟨rfl, rfl, ?_⟩
      simpa using hany

theorem find?_map_replace (l : List Service) (key : NamespacedName) (svc obj : Service)
    (hk : obj.key = key) (h : l.find? (fun x => x.key == key) = some svc) :
    (l.map (fun s => if s.key == obj.key then obj else s)).find? (fun x => x.key == key) =
      some obj := by
  induction l with
  | nil => simp at h
  | cons x xs ih =>
    by_cases hx : x.key = key
    · simp [List.find?_cons, hx, hk]
    · have hx2 : (x.key == key) = false := by simpa using hx
      rw [List.find?_cons, hx2] at h
      simp only [List.map_cons, hk, hx2, Bool.false_eq_true, if_false, List.find?_cons]
      rw [hk] at ih
      exact ih h

theorem tick_invariant (w : World) (key : NamespacedName) (ports : List ServicePort)
    (hp : PortsUnder w.services key ports) (hd : ∀ a ∈ w.platform, a.drift = false) :
    PortsUnder w.tick.services key ports ∧ (∀ a ∈ w.tick.platform, a.drift = false) := by
  unfold World.tick
  cases hpl : w.platform with
  | nil =>
    simp only
    exact ⟨hp, hd⟩
  | cons a as =>
    rw [hpl] at hd
    simp only
    refine ⟨?_, fun b hb => hd b (List.mem_cons_of_mem _ hb)⟩
    have ha := hd a (List.mem_cons_self _ _)
    cases a with
    | idle => exact hp
    | assignIngress k ing =>
      intro s hs hkey
      simp only [PlatformAction.apply, List.mem_map] at hs
      obtain ⟨s0, hs0, rfl⟩ := hs
      by_cases hk : (s0.key == k) = true
      · rw [if_pos hk] at hkey ⊢
        exact hp s0 hs0 hkey
      · rw [if_neg hk] at hkey ⊢
        exact hp s0 hs0 hkey
    | write obj => simp [PlatformAction.drift] at ha
    | remove k => simp [PlatformAction.drift] at ha

theorem poll_success (lb : loadBalancer) (name : String) (ports : List ServicePort) (n : Nat) :
    ∀ (svc : Service) (w : World) (svcF : Service) (w1 : World),
      svc.Status.LoadBalancer.Ingress = [] →
      PortsUnder w.services ⟨lb.namespace_, name⟩ ports →
      (∀ a ∈ w.platform, a.drift = false) →
      PollUntilContextTimeout (ingressCondition lb name) n svc w = ((svcF, none), w1) →
      w1.services.find? (fun x => x.key == ⟨lb.namespace_, name⟩) = some svcF ∧
        svcF.Spec.Ports = ports := by
  induction n with
  | zero =>
    intro svc w svcF w1 _ _ _ h
    simp [PollUntilContextTimeout] at h
  | succ n ih =>
    intro svc w svcF w1 hing hp hd h
    unfold PollUntilContextTimeout at h
    have hcond : ingressCondition lb name svc w =
        match getLoadBalancerByName lb name w with
        | ((_, some err), w1) => ((svc, false, some err), w1)
        | ((some s, none), w1) =>
          if s.Status.LoadBalancer.Ingress.length > 0 then ((s, true, none), w1)
          else ((svc, false, none), w1)
        | ((none, none), w1) => ((svc, false, none), w1) := by
      unfold ingressCondition
      rw [hing]
      simp
    rw [hcond] at h
    have h2 := getLoadBalancerByName_snd lb name w
    rcases hg : getLoadBalancerByName lb name w with ⟨⟨s, e⟩, w2⟩
    rw [hg] at h h2
    simp only at h2
    have hserv : w2.services = w.services := by rw [h2]; rfl
    have hplat : w2.platform = w.platform := by rw [h2]; rfl
    have hstep : PortsUnder w2.tick.services ⟨lb.namespace_, name⟩ ports ∧
        (∀ a ∈ w2.tick.platform, a.drift = false) :=
      tick_invariant w2 _ ports (by rw [hserv]; exact hp) (by rw [hplat]; exact hd)
    cases e with
    | some err => simp at h
    | none =>
      cases s with
      | none =>
        simp only at h
        exact ih svc w2.tick svcF w1 hing hstep.1 hstep.2 h
      | some s1 =>
        have hok := (getLoadBalancerByName_some lb name w w2 s1 none hg).1
        have hfind := (GetService_ok w w2 _ s1 hok).2
        simp only at h
        by_cases hi : s1.Status.LoadBalancer.Ingress.length > 0
        · rw [if_pos hi] at h
          simp only [Prod.mk.injEq, and_true] at h
          obtain ⟨rfl, rfl⟩ := h
          refine ⟨by rw [hserv]; exact hfind, ?_⟩
          have hmem := List.mem_of_find?_eq_some hfind
          have hkey := List.find?_some hfind
          exact hp s1 hmem (by simpa using hkey)
        · rw [if_neg hi] at h
          simp only at h
          exact ih svc w2.tick svcF w1 hing hstep.1 hstep.2 h

theorem EnsureLoadBalancer_success_stored (lb : loadBalancer) (clusterName : String)
    (service : Service) (nodes : List Node) (w w1 : World) (st1 : LoadBalancerStatus)
    (hdrift : ∀ a ∈ w.platform, a.drift = false)
    (h1 : EnsureLoadBalancer lb clusterName service nodes w = ((some st1, none), w1)) :
    ∃ s, w1.services.find?
          (fun x => x.key == ⟨lb.namespace_, GetLoadBalancerName lb clusterName service⟩) =
          some s ∧
        s.Spec.Ports = createLoadBalancerPorts service ∧ s.Status.LoadBalancer = st1 := by
  have h2 := getLoadBalancerByName_snd lb (GetLoadBalancerName lb clusterName service) w
  rcases hg : getLoadBalancerByName lb (GetLoadBalancerName lb clusterName service) w with
    ⟨⟨s, e⟩, wa⟩
  rw [hg] at h2
  simp only at h2
  have hserv : wa.services = w.services := by rw [h2]; rfl
  have hplat : wa.platform = w.platform := by rw [h2]; rfl
  cases e with
  | some err =>
    unfold EnsureLoadBalancer at h1
    simp [hg] at h1
  | none =>
    cases s with
    | some svc =>
      have hok := (getLoadBalancerByName_some lb _ w wa svc none hg).1
      have hfind := (GetService_ok w wa _ svc hok).2
      rw [EnsureLoadBalancer_existing lb clusterName service nodes w wa svc hok] at h1
      by_cases heq : svc.Spec.Ports = createLoadBalancerPorts service
      · rw [updateLoadBalancerPorts_equal svc _ wa heq] at h1
        simp only [Prod.mk.injEq, Option.some.injEq, and_true] at h1
        obtain ⟨hst, hw⟩ := h1
        refine ⟨svc, ?_, heq, hst⟩
        rw [← hw, hserv]
        exact hfind
      · rw [updateLoadBalancerPorts_differ svc _ wa heq] at h1
        simp only [Prod.mk.injEq, Option.some.injEq] at h1
        obtain ⟨⟨hst, hnone⟩, hw⟩ := h1
        have hkey : svc.key = ⟨lb.namespace_, GetLoadBalancerName lb clusterName service⟩ := by
          simpa using List.find?_some hfind
        refine ⟨{ svc with Spec := { svc.Spec with Ports := createLoadBalancerPorts service } },
          ?_, rfl, hst⟩
        rw [← hw, Update_none wa _ hnone, hserv]
        exact find?_map_replace w.services _ svc _ hkey hfind
    | none =>
      unfold EnsureLoadBalancer at h1
      simp only [hg] at h1
      generalize lb.infraLabels.entries.foldl (fun m e => m.insert e.1 e.2)
        ((((∅ : StringMap).insert "cluster.x-k8s.io/tenant-service-name" service.Name).insert
          "cluster.x-k8s.io/tenant-service-namespace" service.Namespace).insert
          "cluster.x-k8s.io/cluster-name" clusterName) = L at h1
      generalize (∅ : StringMap).insert "cluster.x-k8s.io/cluster-name" clusterName = V at h1
      have hobj := createLoadBalancer_obj lb (GetLoadBalancerName lb clusterName service) service
        V L (createLoadBalancerPorts service) wa
      have hcr := createLoadBalancer_create lb (GetLoadBalancerName lb clusterName service)
        service V L (createLoadBalancerPorts service) wa
      rcases hc : createLoadBalancer lb (GetLoadBalancerName lb clusterName service) service V L
        (createLoadBalancerPorts service) wa with ⟨⟨obj, e⟩, w2⟩
      rw [hc] at hobj hcr h1
      simp only at hobj hcr
      cases e with
      | some err => simp at h1
      | none =>
        simp only at h1
        have hcn := Create_none wa obj hcr.1.symm
        rw [← hcr.2] at hcn
        rcases hp : PollUntilContextTimeout
          (ingressCondition lb (GetLoadBalancerName lb clusterName service))
          (pollAttempts lb.config) obj w2 with ⟨⟨sF, e2⟩, w3⟩
        rw [hp] at h1
        cases e2 with
        | some err2 => simp at h1
        | none =>
          simp only [Prod.mk.injEq, Option.some.injEq, and_true] at h1
          obtain ⟨hst, hw⟩ := h1
          have hpu : PortsUnder w2.services
              ⟨lb.namespace_, GetLoadBalancerName lb clusterName service⟩
              (createLoadBalancerPorts service) := by
            intro s hs hkey
            rw [hcn.1, List.mem_append, List.mem_singleton] at hs
            rcases hs with hs | hs
            · exfalso
              have hany := hcn.2.2
              rw [List.any_eq_false] at hany
              have := hany s hs
              rw [hobj.2.1, hkey] at this
              simp at this
            · rw [hs]
              exact hobj.2.2.1
          have hd2 : ∀ a ∈ w2.platform, a.drift = false := by
            rw [hcn.2.1, hplat]
            exact hdrift
          have := poll_success lb _ (createLoadBalancerPorts service) (pollAttempts lb.config)
            obj w2 sF w3 hobj.2.2.2 hpu hd2 hp
          refine ⟨sF, ?_, this.2, hst⟩
          rw [← hw]
          exact this.1

/-- C8, as stated, fails on two inputs. First: `web` on an empty store, where
another writer replaces the created object while the first call waits, putting
an ingress point and an allocated node port (31080) on it; the first call
succeeds without any update, nothing changes between the calls, and the second
call issues an update. Second: the platform assigns the ingress point, the first
call succeeds, and the store fails the lookup of the second call; the second
call returns that error and no status. -/
theorem EnsureLoadBalancer_idempotent_counterexample :
    ((EnsureLoadBalancer exampleLB "demo" (exampleExposed [httpPort]) []
          (exampleWorld []
            [.write (exampleBacking
              [⟨"http", "TCP", none, 80, ⟨intstr.Int, 30080, ""⟩, 31080⟩]
              [⟨"10.0.0.9", ""⟩])])).1 =
        (some ⟨[⟨"10.0.0.9", ""⟩]⟩, none) ∧
      updatedObjects
          (EnsureLoadBalancer exampleLB "demo" (exampleExposed [httpPort]) []
            (exampleWorld []
              [.write (exampleBacking
                [⟨"http", "TCP", none, 80, ⟨intstr.Int, 30080, ""⟩, 31080⟩]
                [⟨"10.0.0.9", ""⟩])])).2.log = [] ∧
      updatedObjects
          (EnsureLoadBalancer exampleLB "demo" (exampleExposed [httpPort]) []
            (EnsureLoadBalancer exampleLB "demo" (exampleExposed [httpPort]) []
              (exampleWorld []
                [.write (exampleBacking
                  [⟨"http", "TCP", none, 80, ⟨intstr.Int, 30080, ""⟩, 31080⟩]
                  [⟨"10.0.0.9", ""⟩])])).2).2.log =
        [exampleBacking [⟨"http", "TCP", none, 80, ⟨intstr.Int, 30080, ""⟩, 0⟩]
          [⟨"10.0.0.9", ""⟩]]) ∧
    ((EnsureLoadBalancer exampleLB "demo" (exampleExposed [httpPort]) []
          { exampleWorld [] [.assignIngress ⟨"infra", "a1234abcd"⟩ [⟨"10.0.0.9", ""⟩]] with
            faults := [none, none, none, none, some ⟨"", 500, "store unreachable"⟩] }).1 =
        (some ⟨[⟨"10.0.0.9", ""⟩]⟩, none) ∧
      (EnsureLoadBalancer exampleLB "demo" (exampleExposed [httpPort]) []
          (EnsureLoadBalancer exampleLB "demo" (exampleExposed [httpPort]) []
            { exampleWorld [] [.assignIngress ⟨"infra", "a1234abcd"⟩ [⟨"10.0.0.9", ""⟩]] with
              faults := [none, none, none, none,
                some ⟨"", 500, "store unreachable"⟩] }).2).1 =
        (none, some (Error.client ⟨"", 500, "store unreachable"⟩))) :=
  ⟨⟨rfl, rfl, rfl⟩, rfl, rfl⟩

/-- C8, amended. `EnsureLoadBalancer` is idempotent over the explicit backing
store when nothing but the reconciler and the platform's assignment of ingress
points writes to it: if a first call succeeds with status `st1`, no external
writer rewrote or removed a stored object while that call waited (the platform
only assigned ingress points), the second call runs on the world the first one
left (store and exposed service unchanged in between), and the store does not
fail the lookup of the second call, then the second call returns the same
status and no error, issues the lookup and nothing else (no create, no update)
and leaves the stored objects unchanged. -/
theorem EnsureLoadBalancer_idempotent (lb : loadBalancer) (clusterName : String)
    (service : Service) (nodes nodes2 : List Node) (w w1 : World) (st1 : LoadBalancerStatus)
    (hdrift : ∀ a ∈ w.platform, a.drift = false)
    (h1 : EnsureLoadBalancer lb clusterName service nodes w = ((some st1, none), w1))
    (hf : w1.faults.head?.join = none) :
    ∃ w2, EnsureLoadBalancer lb clusterName service nodes2 w1 = ((some st1, none), w2) ∧
      w2.services = w1.services ∧ w2.instances = w1.instances ∧ w2.nodes = w1.nodes ∧
      w2.log = w1.log ++
        [Call.getService ⟨lb.namespace_, GetLoadBalancerName lb clusterName service⟩] ∧
      createdObjects w2.log = createdObjects w1.log ∧
      updatedObjects w2.log = updatedObjects w1.log := by
  obtain ⟨s, hfind, hports, hst⟩ :=
    EnsureLoadBalancer_success_stored lb clusterName service nodes w w1 st1 hdrift h1
  have hget := GetService_of_find w1 _ s hf hfind
  have h := reconcile_equal lb clusterName service nodes2 w1 _ s hget hports
  refine ⟨_, ?_, h.2.2.2.1, h.2.2.2.2.1, h.2.2.2.2.2, h.2.2.1, ?_, ?_⟩
  · rw [h.1, hst]
  · rw [h.2.2.1]
    simp [createdObjects, List.filterMap_append]
  · rw [h.2.2.1]
    simp [updatedObjects, List.filterMap_append]

/-- Witness for C8 (amended): `web` on an empty store, the platform assigning an ingress
point after the second poll; the first call creates the object and returns the
ingress, the second call only looks the object up and returns the same. -/
theorem EnsureLoadBalancer_idempotent_witness :
    EnsureLoadBalancer exampleLB "demo" (exampleExposed [httpPort]) []
        (exampleWorld [] [.idle, .assignIngress ⟨"infra", "a1234abcd"⟩ [⟨"10.0.0.9", ""⟩]]) =
      ((some ⟨[⟨"10.0.0.9", ""⟩]⟩, none),
        (EnsureLoadBalancer exampleLB "demo" (exampleExposed [httpPort]) []
          (exampleWorld [] [.idle,
            .assignIngress ⟨"infra", "a1234abcd"⟩ [⟨"10.0.0.9", ""⟩]])).2) ∧
      ∃ w2, EnsureLoadBalancer exampleLB "demo" (exampleExposed [httpPort]) []
          (EnsureLoadBalancer exampleLB "demo" (exampleExposed [httpPort]) []
            (exampleWorld [] [.idle,
              .assignIngress ⟨"infra", "a1234abcd"⟩ [⟨"10.0.0.9", ""⟩]])).2 =
          ((some ⟨[⟨"10.0.0.9", ""⟩]⟩, none), w2) ∧
        updatedObjects w2.log = [] ∧ (createdObjects w2.log).length = 1 := by
  refine ⟨rfl, ?_⟩
  obtain ⟨w2, h, _, _, _, _, hc, hu⟩ :=
    EnsureLoadBalancer_idempotent exampleLB "demo" (exampleExposed [httpPort]) [] []
      (exampleWorld [] [.idle, .assignIngress ⟨"infra", "a1234abcd"⟩ [⟨"10.0.0.9", ""⟩]])
      (EnsureLoadBalancer exampleLB "demo" (exampleExposed [httpPort]) []
        (exampleWorld [] [.idle,
          .assignIngress ⟨"infra", "a1234abcd"⟩ [⟨"10.0.0.9", ""⟩]])).2
      ⟨[⟨"10.0.0.9", ""⟩]⟩ (by decide) rfl rfl
  exact ⟨w2, h, hu.trans (by decide), by rw [hc]; decide⟩

end Provider
